import Mathlib

/-! # Cravebites backend: the order subsystem

A shallow embedding of `routes/orderRoutes.js` and `models/Order.js`.

* JavaScript numbers are modelled by rationals (`ℚ`), JSON fields that may be
  absent by `Option`.
* The `orders` collection is a list of documents in insertion order; a request
  handler is a function from the request and the store to a response and the
  next store.
* The identifier library (`mongoose.Types.ObjectId`) is not part of the
  repository: its string conversion is a parameter `cast` of the handlers that
  use it.
-/

namespace Cravebites

/-! ## Strings -/

/-- `String.prototype.padStart(targetLength, padString)`: the receiver when it is
already long enough (or the pad string is empty), otherwise the pad string
repeated and cut to the missing length, followed by the receiver. -/
def padStart (s : String) (targetLength : Nat) (padString : String) : String :=
  if targetLength ≤ s.length ∨ padString.data = [] then s
  else
    let fillLen := targetLength - s.length
    String.mk ((List.replicate fillLen padString.data).flatten.take fillLen) ++ s

/-- `String(n)` for a non-negative integer `n`: its decimal numeral (JavaScript
changes to exponent form from 10^21 on, more documents than a collection holds). -/
def jsString (n : Nat) : String := Nat.repr n

/-- The order number of `routes/orderRoutes.js` line 211, from the document count:
the template literal ORD followed by `String(orderCount + 1).padStart(4, '0')`. -/
def orderNumberOf (orderCount : Nat) : String :=
  "ORD" ++ padStart (jsString (orderCount + 1)) 4 "0"

/-- The decimal digit characters. -/
def isDecimalDigit (c : Char) : Bool := decide ('0' ≤ c ∧ c ≤ '9')

/-- The wording of the specification of the order number: the decimal numeral of
`m` with zeros put in front until the width is reached. -/
def zeroPadded (m width : Nat) : String :=
  String.mk (List.replicate (width - (Nat.toDigits 10 m).length) '0' ++ Nat.toDigits 10 m)

/-- The number a list of decimal digit characters denotes: the inverse of the
numeral function, used to show that numerals determine the number. -/
def decimalValue (cs : List Char) : Nat :=
  cs.foldl (fun acc c => 10 * acc + (c.toNat - 48)) 0

/-- The numeral of `m` at a fixed width, most significant digit first. -/
def fixedWidth : Nat → Nat → List Char
  | 0, _ => []
  | w + 1, m => fixedWidth w (m / 10) ++ [Nat.digitChar (m % 10)]

/-! ## Documents -/

/-- The value of a 12-byte object identifier. -/
abbrev ObjectId := Nat

/-- The `customer` sub-document of `orderSchema`. -/
structure Customer where
  name : String
  phone : String
deriving DecidableEq

/-- A stored value of the path `product` of a line item. The path has the schema
type `Mixed`, which stores a value as it is given: the creation route stores the
string the client sent; a document written with the identifier type holds an
object identifier. The two are values of different types, also when the string is
the hexadecimal form of the identifier. -/
inductive ProductRef where
  | text (s : String)
  | objectId (id : ObjectId)
deriving DecidableEq

/-- A stored line item (`orderItemSchema`). -/
structure OrderItem where
  product : ProductRef
  productModel : String
  name : String
  quantity : ℚ
  price : ℚ
  image : Option String
deriving DecidableEq

/-- The `paymentResult` object assembled by the payment route. -/
structure PaymentResult where
  id : Option String
  status : Option String
  update_time : Option String
  email_address : Option String
deriving DecidableEq

/-- An order document. The fields up to `updatedAt` are the paths of `orderSchema`
(with `timestamps: true`). `isPaid`, `paidAt` and `paymentResult` are not paths of
the schema: the payment route assigns them as properties of the loaded document
object, and the schema being strict they are neither written to the collection nor
serialised (see `schemaPaths`). -/
structure Order where
  _id : ObjectId
  orderNumber : String
  customer : Customer
  orderItems : List OrderItem
  paymentMethod : String
  subtotal : ℚ
  cgst : ℚ
  sgst : ℚ
  deliveryCharge : ℚ
  totalAmount : ℚ
  status : String
  createdAt : Nat
  updatedAt : Nat
  isPaid : Option Bool
  paidAt : Option Nat
  paymentResult : Option PaymentResult
deriving DecidableEq

/-- What a strict schema keeps of a document object: its schema paths. -/
def schemaPaths (o : Order) : Order :=
  { o with isPaid := none, paidAt := none, paymentResult := none }

/-- Modelled from the spec: the product record of the Catalog Store
(`models/Product.js` is imported by the routes but is not among the sources): a
persisted record with a name and a reference to its category. -/
structure Product where
  _id : ObjectId
  name : String
  category : Option ObjectId
deriving DecidableEq

/-- The fields of a category (`models/Category.js`) the order subsystem reads. -/
structure Category where
  _id : ObjectId
  name : String
deriving DecidableEq

/-- The database: the `orders` collection in insertion order, and the catalog. -/
structure Store where
  orders : List Order
  products : List Product
  categories : List Category
deriving DecidableEq

/-- The store before any order was created, over a given catalog. -/
def emptyStore (products : List Product) (categories : List Category) : Store :=
  { orders := [], products := products, categories := categories }

/-! ## Requests and responses -/

/-- The `customer` object of a creation payload. -/
structure CustomerPayload where
  name : Option String
  phone : Option String
deriving DecidableEq

/-- A submitted line item: every field may be absent, `productModel` is whatever
kind tag the client sent. -/
structure ItemPayload where
  product : Option String
  productModel : Option String
  name : Option String
  quantity : Option ℚ
  price : Option ℚ
  image : Option String
deriving DecidableEq

/-- The JSON body of `POST /api/orders`. `status` stands for a status value a
client may send along; the handler does not read it. -/
structure OrderPayload where
  customer : Option CustomerPayload
  orderItems : Option (List ItemPayload)
  paymentMethod : Option String
  subtotal : Option ℚ
  cgst : Option ℚ
  sgst : Option ℚ
  deliveryCharge : Option ℚ
  totalAmount : Option ℚ
  status : Option String
deriving DecidableEq

/-- The JSON body of `PUT /api/orders/:id/pay`. -/
structure PaymentPayload where
  id : Option String
  status : Option String
  update_time : Option String
  email_address : Option String
deriving DecidableEq

/-- The message of one failed validator: the text declared in the schema (or written
in the handler), or the library default for a kind of validator and a path. -/
inductive ValidatorError where
  | message (text : String)
  | required (path : String)
  | min (path : String)
  | enum (path : String)
deriving DecidableEq

/-- A bucket of the sales-by-date report. The date string `%Y-%m-%d` of a bucket is
represented by the number of its UTC day (days since the epoch): the string and the
day number determine each other, and up to the year 9999 the strings are ordered
like the days. -/
structure DateBucket where
  date : Nat
  sales : ℚ
  orders : Nat
deriving DecidableEq

/-- A bucket of the sales-by-category report. -/
structure CategoryBucket where
  category : String
  sales : ℚ
  orders : Nat
deriving DecidableEq

/-- A bucket of the sales-by-product report. -/
structure ProductBucket where
  name : String
  sales : ℚ
  quantity : ℚ
deriving DecidableEq

/-- A bucket of the order status counts. -/
structure StatusBucket where
  status : String
  count : Nat
  totalSales : ℚ
deriving DecidableEq

/-- The `summary` object of the reports. -/
structure Summary where
  totalSales : ℚ
  totalOrders : Nat
  averageOrderValue : ℚ
  topSellingCategory : String
deriving DecidableEq

/-- The body of `GET /api/orders/stats/reports`. -/
structure Reports where
  summary : Summary
  salesByDate : List DateBucket
  salesByCategory : List CategoryBucket
  salesByProduct : List ProductBucket
  orderStatusCounts : List StatusBucket
deriving DecidableEq

/-- The JSON bodies the order routes send. -/
inductive Body where
  | order (o : Order)
  | populated (o : Order) (products : List (Option Product))
  | validationError (message : String) (errors : List ValidatorError)
  | message (message : String)
  | failure (message : String) (error : String)
  | orders (os : List Order)
  | reports (r : Reports)
deriving DecidableEq

/-- An HTTP response: status code and JSON body. -/
structure Response where
  status : Nat
  body : Body
deriving DecidableEq

/-- The parts of the object-document library the routes call, as parameters:
`castObjectId s` is the identifier a string converts to (`none` when the conversion
throws; `ObjectId.isValid` tells whether it succeeds), `populate` is the population
of `orderItems.product` over the catalog, which yields the resolved product of each
line item or throws. -/
structure Library where
  castObjectId : String → Option ObjectId
  populate : List Product → Order → Except String (List (Option Product))

/-- What the environment supplies to a creation: the clock and the identifier the
driver generates for the new document. -/
structure CreateEnv where
  now : Nat
  newId : ObjectId
deriving DecidableEq

/-! ## Schema validation -/

/-- `ObjectId.isValid(v)` for a value that may be absent. -/
def Library.isValid (lib : Library) (v : Option String) : Bool :=
  match v with
  | none => false
  | some s => (lib.castObjectId s).isSome

/-- The `required` validator of a string path: present and not empty. -/
def requiredString (v : Option String) : Bool :=
  match v with
  | none => false
  | some s => decide (s.data ≠ [])

/-- The validators of `orderItemSchema` on the item at index `i`, in the order of
the schema. A path reports its first failing validator. -/
def validateItem (i : Nat) (it : ItemPayload) : List ValidatorError :=
  let path := fun (field : String) => "orderItems." ++ toString i ++ "." ++ field
  (if it.product.isNone then [ValidatorError.message "Product ID is required"] else [])
  ++ (match it.productModel with
      | none => []
      | some m => if m ∈ ["Product", "TempProduct"] then [] else [ValidatorError.enum (path "productModel")])
  ++ (if requiredString it.name then [] else [ValidatorError.required (path "name")])
  ++ (match it.quantity with
      | none => [ValidatorError.required (path "quantity")]
      | some q => if q < 1 then [ValidatorError.message "Quantity must be at least 1"] else [])
  ++ (match it.price with
      | none => [ValidatorError.required (path "price")]
      | some p => if p < 0 then [ValidatorError.message "Price cannot be negative"] else [])

/-- The validators of every item of a list, `i` being the index of its head. -/
def validateItems : Nat → List ItemPayload → List ValidatorError
  | _, [] => []
  | i, it :: rest => validateItem i it ++ validateItems (i + 1) rest

/-- The `required` and `min: 0` validators of a number path. -/
def validateAmount (path : String) (v : Option ℚ) : List ValidatorError :=
  match v with
  | none => [ValidatorError.required path]
  | some x => if x < 0 then [ValidatorError.min path] else []

/-- The object handed to `new Order(...)` by the creation route. -/
structure OrderDraft where
  orderNumber : String
  customer : Option CustomerPayload
  orderItems : List ItemPayload
  paymentMethod : Option String
  subtotal : Option ℚ
  cgst : Option ℚ
  sgst : Option ℚ
  deliveryCharge : ℚ
  totalAmount : Option ℚ
  status : String
deriving DecidableEq

/-- The payment method of a new document: the schema default `cash` when absent. -/
def paymentMethodOf (v : Option String) : String := v.getD "cash"

/-- The validators of `orderSchema` on a new document, in the order of the schema. -/
def validateDraft (d : OrderDraft) : List ValidatorError :=
  (if requiredString (some d.orderNumber) then [] else [ValidatorError.required "orderNumber"])
  ++ validateItems 0 d.orderItems
  ++ (if requiredString (some (paymentMethodOf d.paymentMethod)) then
        (if paymentMethodOf d.paymentMethod ∈ ["cash", "card", "upi"] then []
         else [ValidatorError.enum "paymentMethod"])
      else [ValidatorError.message "Payment method is required"])
  ++ validateAmount "subtotal" d.subtotal
  ++ validateAmount "cgst" d.cgst
  ++ validateAmount "sgst" d.sgst
  ++ (if d.deliveryCharge < 0 then [ValidatorError.min "deliveryCharge"] else [])
  ++ validateAmount "totalAmount" d.totalAmount
  ++ (if d.status ∈ ["pending", "processing", "delivered", "cancelled"] then []
      else [ValidatorError.enum "status"])

/-- The stored form of a line item, when its required paths are present. -/
def castItem (it : ItemPayload) : Option OrderItem :=
  match it.product, it.name, it.quantity, it.price with
  | some product, some name, some quantity, some price =>
    some { product := ProductRef.text product, productModel := it.productModel.getD "Product",
           name := name,
           quantity := quantity, price := price, image := it.image }
  | _, _, _, _ => none

/-- The stored form of a list of line items. -/
def castItems : List ItemPayload → Option (List OrderItem)
  | [] => some []
  | it :: rest =>
    match castItem it, castItems rest with
    | some o, some os => some (o :: os)
    | _, _ => none

/-- The `customer` sub-document: the schema defaults for absent fields, `trim: true`
on both. -/
def castCustomer (c : Option CustomerPayload) : Customer :=
  { name := ((c.bind (fun x => x.name)).map String.trim).getD "Guest",
    phone := ((c.bind (fun x => x.phone)).map String.trim).getD "0000000000" }

/-- The document a draft becomes, when its required paths are present: identifier
from the driver, both timestamps at the instant of the save. -/
def buildOrder (env : CreateEnv) (d : OrderDraft) : Option Order :=
  match castItems d.orderItems, d.subtotal, d.cgst, d.sgst, d.totalAmount with
  | some items, some subtotal, some cgst, some sgst, some totalAmount =>
    some { _id := env.newId, orderNumber := d.orderNumber, customer := castCustomer d.customer,
           orderItems := items, paymentMethod := paymentMethodOf d.paymentMethod,
           subtotal := subtotal, cgst := cgst, sgst := sgst,
           deliveryCharge := d.deliveryCharge, totalAmount := totalAmount,
           status := d.status, createdAt := env.now, updatedAt := env.now,
           isPaid := none, paidAt := none, paymentResult := none }
  | _, _, _, _, _ => none

/-- What `save` throws. -/
inductive SaveError where
  | validation (errors : List ValidatorError)
  | duplicateKey (message : String)
deriving DecidableEq

/-- The call `order.save()` on a new document: the schema validators run first and
their failures are thrown together as a `ValidationError`; the insert is then refused
by the unique index on `orderNumber` when another document carries the same number;
otherwise the document is appended to the collection and returned. -/
def saveNew (env : CreateEnv) (d : OrderDraft) (db : Store) : Except SaveError (Order × Store) :=
  match buildOrder env d with
  | none => Except.error (SaveError.validation (validateDraft d))
  | some o =>
    if validateDraft d ≠ [] then Except.error (SaveError.validation (validateDraft d))
    else if db.orders.any (fun x => x.orderNumber == o.orderNumber) then
      Except.error (SaveError.duplicateKey "E11000 duplicate key error")
    else Except.ok (o, { db with orders := db.orders ++ [o] })

/-! ## The routes -/

/-- The body `res.json(order)` sends for a document: its schema paths. -/
def jsonOrder (o : Order) : Body := Body.order (schemaPaths o)

/-- The test `!v` on a number that may be absent. -/
def falsy (v : Option ℚ) : Bool :=
  match v with
  | none => true
  | some x => decide (x = 0)

/-- The item normalisation of `POST /api/orders` (lines 213-223): every item is
copied, and its `productModel` set from `ObjectId.isValid(item.product)`. -/
def processOrderItems (lib : Library) (orderItems : List ItemPayload) : List ItemPayload :=
  orderItems.map (fun item =>
    { item with productModel := some (if lib.isValid item.product then "Product" else "TempProduct") })

/-- The handler of `POST /api/orders`. -/
def createOrder (lib : Library) (env : CreateEnv) (body : OrderPayload) (db : Store) :
    Response × Store :=
  match body.orderItems with
  | none =>
    (⟨400, Body.validationError "Validation Error" [ValidatorError.message "Order items are required"]⟩, db)
  | some [] =>
    (⟨400, Body.validationError "Validation Error" [ValidatorError.message "Order items are required"]⟩, db)
  | some (item :: items) =>
    if falsy body.cgst || falsy body.sgst then
      (⟨400, Body.validationError "Validation Error" [ValidatorError.message "CGST and SGST are required"]⟩, db)
    else
      let orderCount := db.orders.length
      let orderNumber := orderNumberOf orderCount
      let processedOrderItems := processOrderItems lib (item :: items)
      let order : OrderDraft :=
        { orderNumber := orderNumber, customer := body.customer,
          orderItems := processedOrderItems, paymentMethod := body.paymentMethod,
          subtotal := body.subtotal, cgst := body.cgst, sgst := body.sgst,
          deliveryCharge := body.deliveryCharge.getD 0, totalAmount := body.totalAmount,
          status := "pending" }
      match saveNew env order db with
      | Except.ok (savedOrder, db') => (⟨201, jsonOrder savedOrder⟩, db')
      | Except.error (SaveError.validation errors) =>
        (⟨400, Body.validationError "Validation Error" errors⟩, db)
      | Except.error (SaveError.duplicateKey msg) =>
        (⟨500, Body.failure "Error creating order" msg⟩, db)

/-- The object the creation route hands to `new Order` (lines 209-236) for a
non-empty item list, named for the statements about `createOrder`. -/
def creationDraft (lib : Library) (body : OrderPayload) (items : List ItemPayload)
    (orderCount : Nat) : OrderDraft :=
  { orderNumber := orderNumberOf orderCount, customer := body.customer,
    orderItems := processOrderItems lib items, paymentMethod := body.paymentMethod,
    subtotal := body.subtotal, cgst := body.cgst, sgst := body.sgst,
    deliveryCharge := body.deliveryCharge.getD 0, totalAmount := body.totalAmount,
    status := "pending" }

/-- The first document with the given identifier, changed by `f`. -/
def updateFirst (oid : ObjectId) (f : Order → Order) : List Order → List Order
  | [] => []
  | o :: rest => if o._id = oid then f o :: rest else o :: updateFirst oid f rest

/-- The handler of `PUT /api/orders/:id/status`, for a body that carries a status
string. `findByIdAndUpdate(id, { status }, { new: true })` converts the identifier
(a failure is thrown and answered by the `catch` with 500), sets `status` and, the
schema having timestamps, `updatedAt` on the matching document without running
the schema validators (no `runValidators` option), and returns the updated document,
which is then populated. -/
def updateStatus (lib : Library) (now : Nat) (id : String) (status : String) (db : Store) :
    Response × Store :=
  match lib.castObjectId id with
  | none => (⟨500, Body.failure "Error updating order status" "Cast to ObjectId failed"⟩, db)
  | some oid =>
    match db.orders.find? (fun o => o._id == oid) with
    | none => (⟨404, Body.message "Order not found"⟩, db)
    | some found =>
      let order := { found with status := status, updatedAt := now }
      let db' := { db with orders := updateFirst oid (fun _ => order) db.orders }
      match lib.populate db.products order with
      | Except.error e => (⟨500, Body.failure "Error updating order status" e⟩, db')
      | Except.ok products => (⟨200, Body.populated (schemaPaths order) products⟩, db')

/-- The JSON form of a stored reference: the string itself, or the 24 hexadecimal
digits of the identifier. -/
def ProductRef.toJson : ProductRef → String
  | ProductRef.text s => s
  | ProductRef.objectId id => padStart (String.mk (Nat.toDigits 16 id)) 24 "0"

/-- A stored line item read back as the value the validators see. -/
def OrderItem.toPayload (it : OrderItem) : ItemPayload :=
  { product := some it.product.toJson, productModel := some it.productModel, name := some it.name,
    quantity := some it.quantity, price := some it.price, image := it.image }

/-- A stored document read back as the value the validators see. -/
def Order.toDraft (o : Order) : OrderDraft :=
  { orderNumber := o.orderNumber,
    customer := some { name := some o.customer.name, phone := some o.customer.phone },
    orderItems := o.orderItems.map OrderItem.toPayload,
    paymentMethod := some o.paymentMethod,
    subtotal := some o.subtotal, cgst := some o.cgst, sgst := some o.sgst,
    deliveryCharge := o.deliveryCharge, totalAmount := some o.totalAmount, status := o.status }

/-- The call `order.save()` on a document loaded from the collection: the schema
validators run on the document; the paths modified since it was loaded are then
written. The payment route modifies no schema path, so nothing is written. -/
def saveLoaded (doc : Order) (db : Store) : Except SaveError (Order × Store) :=
  if validateDraft doc.toDraft ≠ [] then Except.error (SaveError.validation (validateDraft doc.toDraft))
  else Except.ok (doc, db)

/-- The handler of `PUT /api/orders/:id/pay`. What it throws goes to the error
middleware of `server.js` (lines 152-171): 400 for a `ValidationError` and for a
failed identifier conversion. -/
def markPaid (lib : Library) (now : Nat) (id : String) (body : PaymentPayload) (db : Store) :
    Response × Store :=
  match lib.castObjectId id with
  | none => (⟨400, Body.message "Invalid ID format"⟩, db)
  | some oid =>
    match db.orders.find? (fun o => o._id == oid) with
    | none => (⟨404, Body.message "Order not found"⟩, db)
    | some found =>
      let order := { found with
        isPaid := some true, paidAt := some now,
        paymentResult := some { id := body.id, status := body.status,
                                update_time := body.update_time,
                                email_address := body.email_address } }
      match saveLoaded order db with
      | Except.ok (updatedOrder, db') => (⟨200, jsonOrder updatedOrder⟩, db')
      | Except.error (SaveError.validation errors) =>
        (⟨400, Body.validationError "Validation Error" errors⟩, db)
      | Except.error (SaveError.duplicateKey msg) =>
        (⟨500, Body.failure "Server Error" msg⟩, db)

/-- The handler of `GET /api/orders`: every document of the collection, sorted by
`createdAt` descending (documents with equal `createdAt`, whose order the database
leaves open, keep their relative order). -/
def findAll (db : Store) : Response :=
  ⟨200, Body.orders (db.orders.insertionSort (fun a b => a.createdAt ≥ b.createdAt))⟩

/-- The handler of `GET /api/orders/:id`. `findById` converts the identifier; a
failure is thrown and answered by the `catch` with 500, like a failure of the
population. -/
def findById (lib : Library) (id : String) (db : Store) : Response :=
  match lib.castObjectId id with
  | none => ⟨500, Body.failure "Error fetching order" "Cast to ObjectId failed"⟩
  | some oid =>
    match db.orders.find? (fun o => o._id == oid) with
    | none => ⟨404, Body.message "Order not found"⟩
    | some order =>
      match lib.populate db.products order with
      | Except.error e => ⟨500, Body.failure "Error fetching order" e⟩
      | Except.ok products => ⟨200, Body.populated order products⟩

/-! ## The reports -/

/-- `Order.find({ status: 'delivered' })`. -/
def completedOrders (db : Store) : List Order :=
  db.orders.filter (fun o => o.status == "delivered")

/-- Line 15: `completedOrders.reduce((sum, order) => sum + order.totalAmount, 0)`. -/
def totalSales (db : Store) : ℚ :=
  (completedOrders db).foldl (fun sum order => sum + order.totalAmount) 0

/-- Line 16: the guarded quotient. -/
def averageOrderValue (db : Store) : ℚ :=
  if (completedOrders db).length > 0 then totalSales db / (completedOrders db).length else 0

/-- The stage `$group`: one group for each distinct value of the key, holding the
documents with that value. The database leaves the order of the groups open; here
they come in the order of `List.dedup` of the keys. -/
def groupBy {α κ : Type} [DecidableEq κ] (key : α → κ) (docs : List α) : List (κ × List α) :=
  (docs.map key).dedup.map (fun k => (k, docs.filter (fun d => decide (key d = k))))

/-- The clock of a report: the report instant in milliseconds since the epoch, and
the offset of the server's local time from UTC at the report instant minus that
offset at the cut-off, in milliseconds (0 unless a daylight-saving change of the
server's time zone lies between the two). -/
structure ReportClock where
  now : Nat
  offsetChange : Int
deriving DecidableEq

/-- The instant `thirtyDaysAgo` of lines 19-20, in milliseconds since the epoch:
`setDate(getDate() - 30)` moves the local date back 30 days and keeps the local
time of day, which is 30 times 24 hours back, corrected by the change of the offset
from UTC. -/
def thirtyDaysAgo (clock : ReportClock) : Int :=
  (clock.now : Int) - 30 * 86400000 + clock.offsetChange

/-- The UTC day of an instant, which `$dateToString` renders as `%Y-%m-%d`. -/
def dayOf (t : Nat) : Nat := t / 86400000

/-- The stage `$match` of the sales-by-date pipeline. -/
def matchedByDate (clock : ReportClock) (db : Store) : List Order :=
  db.orders.filter (fun o =>
    decide (thirtyDaysAgo clock ≤ (o.createdAt : Int)) && o.status == "delivered")

/-- The sales-by-date pipeline (lines 22-47): `$match`, `$group` by day, `$sort` by
date ascending, `$project`. -/
def salesByDate (clock : ReportClock) (db : Store) : List DateBucket :=
  ((groupBy (fun o => dayOf o.createdAt) (matchedByDate clock db)).map (fun g =>
      ({ date := g.1, sales := (g.2.map (fun o => o.totalAmount)).sum,
         orders := g.2.length } : DateBucket))).insertionSort
    (fun a b => a.date ≤ b.date)

/-- The stages `$match` and `$unwind: "$orderItems"`: the line items of the delivered
orders. -/
def deliveredItems (db : Store) : List OrderItem :=
  (completedOrders db).flatMap (fun o => o.orderItems)

/-- The stage `$lookup` from `products` on `orderItems.product` = `_id`: the
products whose identifier equals the stored value. A stored string equals no
identifier. -/
def lookupProducts (db : Store) (it : OrderItem) : List Product :=
  db.products.filter (fun p => it.product == ProductRef.objectId p._id)

/-- The stage `$lookup` from `categories` on `product.category` = `_id`. -/
def lookupCategories (db : Store) (p : Product) : List Category :=
  db.categories.filter (fun c => p.category == some c._id)

/-- The documents after `$unwind: "$product"`: a line item with a product it joins. -/
def productRows (db : Store) : List (OrderItem × Product) :=
  (deliveredItems db).flatMap (fun it => (lookupProducts db it).map (fun p => (it, p)))

/-- The documents after `$unwind: "$category"`: a line item with a product it joins
and a category the product joins. -/
def categoryRows (db : Store) : List (OrderItem × Product × Category) :=
  (productRows db).flatMap (fun r => (lookupCategories db r.2).map (fun c => (r.1, r.2, c)))

/-- The sales-by-category pipeline (lines 50-97): `$group` by category name,
`$project`, `$sort` by sales descending. -/
def salesByCategory (db : Store) : List CategoryBucket :=
  ((groupBy (fun r => r.2.2.name) (categoryRows db)).map (fun g =>
      ({ category := g.1, sales := (g.2.map (fun r => r.1.quantity * r.1.price)).sum,
         orders := g.2.length } : CategoryBucket))).insertionSort
    (fun a b => a.sales ≥ b.sales)

/-- The sales-by-product pipeline (lines 100-136): `$group` by product name,
`$project`, `$sort` by sales descending. -/
def salesByProduct (db : Store) : List ProductBucket :=
  ((groupBy (fun r => r.2.name) (productRows db)).map (fun g =>
      ({ name := g.1, sales := (g.2.map (fun r => r.1.quantity * r.1.price)).sum,
         quantity := (g.2.map (fun r => r.1.quantity)).sum } : ProductBucket))).insertionSort
    (fun a b => a.sales ≥ b.sales)

/-- The order status counts (lines 139-155): `$group` by status over all orders. -/
def orderStatusCounts (db : Store) : List StatusBucket :=
  (groupBy (fun o => o.status) db.orders).map (fun g =>
    ({ status := g.1, count := g.2.length,
       totalSales := (g.2.map (fun o => o.totalAmount)).sum } : StatusBucket))

/-- Line 158: the category of the first bucket of the sales-by-category report, or
the text N/A. -/
def topSellingCategory (db : Store) : String :=
  match salesByCategory db with
  | [] => "N/A"
  | b :: _ => b.category

/-- The handler of `GET /api/orders/stats/reports` at the instant of the clock. -/
def getReports (clock : ReportClock) (db : Store) : Response :=
  ⟨200, Body.reports
    { summary := { totalSales := totalSales db, totalOrders := (completedOrders db).length,
                   averageOrderValue := averageOrderValue db,
                   topSellingCategory := topSellingCategory db },
      salesByDate := salesByDate clock db,
      salesByCategory := salesByCategory db,
      salesByProduct := salesByProduct db,
      orderStatusCounts := orderStatusCounts db }⟩

/-! ## Sequences of requests -/

/-- The requests that write to the `orders` collection. -/
inductive Request where
  | create (env : CreateEnv) (body : OrderPayload)
  | status (now : Nat) (id : String) (status : String)
  | pay (now : Nat) (id : String) (body : PaymentPayload)

/-- One request, handled to completion. -/
def handle (lib : Library) (r : Request) (db : Store) : Response × Store :=
  match r with
  | Request.create env body => createOrder lib env body db
  | Request.status now id status => updateStatus lib now id status db
  | Request.pay now id body => markPaid lib now id body db

/-- The store after a sequence of requests handled one after the other. -/
def run (lib : Library) (rs : List Request) (db : Store) : Store :=
  rs.foldl (fun s r => (handle lib r s).2) db

/-- The stores reachable from an empty `orders` collection by requests handled one
after the other. -/
def Reachable (lib : Library) (db : Store) : Prop :=
  ∃ products categories rs, db = run lib rs (emptyStore products categories)

/-- The numbering invariant: the order at position `i` of the collection carries the
number generated from the count `i`. -/
def Numbered (db : Store) : Prop :=
  db.orders.map (fun o => o.orderNumber) = (List.range db.orders.length).map orderNumberOf

/-! ## A concrete library and concrete requests -/

/-- The value of a hexadecimal digit, if the character is one. -/
def hexDigit (c : Char) : Option Nat :=
  if '0' ≤ c ∧ c ≤ '9' then some (c.toNat - 48)
  else if 'a' ≤ c ∧ c ≤ 'f' then some (c.toNat - 87)
  else if 'A' ≤ c ∧ c ≤ 'F' then some (c.toNat - 55)
  else none

/-- The value of a string of hexadecimal digits. -/
def hexValue : List Char → Nat → Option Nat
  | [], acc => some acc
  | c :: cs, acc =>
    match hexDigit c with
    | none => none
    | some d => hexValue cs (16 * acc + d)

/-- The identifier a string of 24 hexadecimal digits denotes. -/
def hexObjectId (s : String) : Option ObjectId :=
  if s.data.length = 24 then hexValue s.data 0 else none

/-- A library to evaluate the routes with: identifiers are the strings of 24
hexadecimal digits; population of the `Mixed` path `orderItems.product` changes
nothing and never throws: no line item gets a resolved product. -/
def sampleLibrary : Library :=
  { castObjectId := hexObjectId,
    populate := fun _ o => Except.ok (o.orderItems.map (fun _ => none)) }

/-- The line item of the scenario of the specification, with the fields the
scenario lists: a well-formed catalog identifier, quantity 2, price 100. -/
def scenarioItem : ItemPayload :=
  { product := some "507f1f77bcf86cd799439011", productModel := none, name := none,
    quantity := some 2, price := some 100, image := none }

/-- The creation payload of the scenario of the specification, with the fields the
scenario lists. -/
def scenarioPayload : OrderPayload :=
  { customer := none, orderItems := some [scenarioItem], paymentMethod := none,
    subtotal := none, cgst := some 9, sgst := some 9, deliveryCharge := some 0,
    totalAmount := some 218, status := none }

/-- The scenario payload completed with the two required fields it leaves out: a
name for the item and the subtotal. -/
def completedScenarioPayload : OrderPayload :=
  { scenarioPayload with
    orderItems := some [{ scenarioItem with name := some "Paneer Tikka" }],
    subtotal := some 200 }

/-- The catalog of the scenario: the product the scenario item refers to, and its
category. -/
def scenarioCatalog : Store :=
  emptyStore [{ _id := 0x507f1f77bcf86cd799439011, name := "Paneer Tikka", category := some 1 }]
    [{ _id := 1, name := "Starters" }]

/-- The identifier a stored reference denotes: the identifier itself, or the one
the stored string converts to. -/
def Library.refId (lib : Library) (ref : ProductRef) : Option ObjectId :=
  match ref with
  | ProductRef.text s => lib.castObjectId s
  | ProductRef.objectId id => some id

/-- The string of a stored reference, when it is a string. -/
def ProductRef.submitted : ProductRef → Option String
  | ProductRef.text s => some s
  | ProductRef.objectId _ => none

/-- Whether a product reference resolves in the Catalog Store: it denotes the
identifier of a stored product. -/
def resolves (lib : Library) (db : Store) (ref : ProductRef) : Bool :=
  match lib.refId ref with
  | none => false
  | some oid => db.products.any (fun p => p._id == oid)

/-- The environment of the k-th creation of a sequence: clock and identifier `k`. -/
def envAt (k : Nat) : CreateEnv := { now := k, newId := k }

/-- The store after `n` creations with the completed scenario payload, over an empty catalog. -/
def storeAfter (n : Nat) : Store :=
  run sampleLibrary ((List.range n).map (fun k => Request.create (envAt k) completedScenarioPayload))
    (emptyStore [] [])

/-- The store after an order is created with `totalAmount` 0 and then set to
`delivered`. -/
def zeroTotalStore : Store :=
  run sampleLibrary
    [Request.create (envAt 0) { completedScenarioPayload with totalAmount := some 0 },
     Request.status 1 "000000000000000000000000" "delivered"] (emptyStore [] [])

/-- The store after two creations over the scenario catalog, the first order then
set to `delivered`. -/
def deliveredStore : Store :=
  run sampleLibrary
    [Request.create (envAt 0) completedScenarioPayload,
     Request.create (envAt 1) completedScenarioPayload,
     Request.status 2 "000000000000000000000000" "delivered"] scenarioCatalog

/-- A store with a document written with the identifier type: a delivered order whose
line item holds the object identifier of a catalog product, over a catalog whose
category is named N/A. -/
def legacyStore : Store :=
  { orders := [{ _id := 0, orderNumber := "ORD0001",
                 customer := { name := "Guest", phone := "0000000000" },
                 orderItems := [{ product := ProductRef.objectId 1, productModel := "Product",
                                  name := "Chai", quantity := 1, price := 10, image := none }],
                 paymentMethod := "cash", subtotal := 10, cgst := 1, sgst := 1,
                 deliveryCharge := 0, totalAmount := 12, status := "delivered", createdAt := 0,
                 updatedAt := 0, isPaid := none, paidAt := none, paymentResult := none }],
    products := [{ _id := 1, name := "Chai", category := some 2 }],
    categories := [{ _id := 2, name := "N/A" }] }

/-- The wording of the specification of the sales-by-category report, the rows: the
line items of the delivered orders whose product reference resolves to a catalog
product whose category resolves, each with the name of that category; every other
line item is left out. -/
def referenceCategoryRows (lib : Library) (db : Store) : List (OrderItem × String) :=
  (db.orders.filter (fun o => decide (o.status = "delivered"))).flatMap (fun o =>
    o.orderItems.filterMap (fun it =>
      match lib.refId it.product with
      | none => none
      | some pid =>
        match db.products.find? (fun p => p._id == pid) with
        | none => none
        | some p =>
          match p.category with
          | none => none
          | some cid =>
            match db.categories.find? (fun c => c._id == cid) with
            | none => none
            | some c => some (it, c.name)))

/-- The wording of the specification of the sales-by-category report: one bucket for
each distinct category name, with the sum of quantity times price and the number of
its line items, ordered by sales non-increasing. -/
def referenceSalesByCategory (lib : Library) (db : Store) : List CategoryBucket :=
  ((groupBy (fun r => r.2) (referenceCategoryRows lib db)).map (fun g =>
      ({ category := g.1, sales := (g.2.map (fun r => r.1.quantity * r.1.price)).sum,
         orders := g.2.length } : CategoryBucket))).insertionSort
    (fun a b => a.sales ≥ b.sales)

/-- The stores in which every line item holds a string as its product reference. -/
def TextRefs (db : Store) : Prop :=
  ∀ o ∈ db.orders, ∀ it ∈ o.orderItems, ∃ s, it.product = ProductRef.text s

/-- The wording of the specification of the sales-by-product report, the rows: the
line items of the delivered orders whose product reference resolves to a catalog
product, each with the name of that product. -/
def referenceProductRows (lib : Library) (db : Store) : List (OrderItem × String) :=
  (db.orders.filter (fun o => decide (o.status = "delivered"))).flatMap (fun o =>
    o.orderItems.filterMap (fun it =>
      match lib.refId it.product with
      | none => none
      | some pid =>
        match db.products.find? (fun p => p._id == pid) with
        | none => none
        | some p => some (it, p.name)))

/-- The wording of the specification of the sales-by-product report: one bucket for
each distinct resolved product name, with the sum of quantity times price and the
sum of the quantities of its line items, ordered by sales non-increasing. -/
def referenceSalesByProduct (lib : Library) (db : Store) : List ProductBucket :=
  ((groupBy (fun r => r.2) (referenceProductRows lib db)).map (fun g =>
      ({ name := g.1, sales := (g.2.map (fun r => r.1.quantity * r.1.price)).sum,
         quantity := (g.2.map (fun r => r.1.quantity)).sum } : ProductBucket))).insertionSort
    (fun a b => a.sales ≥ b.sales)

/-- The store after an order for an ad-hoc product (a reference that is no
identifier) is created over the scenario catalog and set to `delivered`. -/
def adHocStore : Store :=
  run sampleLibrary
    [Request.create (envAt 0)
      { completedScenarioPayload with
        orderItems := some [{ scenarioItem with product := some "temp-1",
                                                name := some "Special Thali" }] },
     Request.status 1 "000000000000000000000000" "delivered"] scenarioCatalog

/-- The store after one creation over the scenario catalog, the order then set to
`delivered`: the delivered order of `deliveredStore` without its pending one. -/
def singleDeliveredStore : Store :=
  run sampleLibrary
    [Request.create (envAt 0) completedScenarioPayload,
     Request.status 2 "000000000000000000000000" "delivered"] scenarioCatalog

/-- A store whose only order carries the number the next creation generates (the
order numbered before it is no longer in the collection). -/
def collidingStore : Store :=
  { orders := [{ _id := 1, orderNumber := "ORD0002",
                 customer := { name := "Guest", phone := "0000000000" },
                 orderItems := [{ product := ProductRef.text "507f1f77bcf86cd799439011",
                                  productModel := "Product", name := "Paneer Tikka",
                                  quantity := 2, price := 100, image := none }],
                 paymentMethod := "cash", subtotal := 200, cgst := 9, sgst := 9,
                 deliveryCharge := 0, totalAmount := 218, status := "pending", createdAt := 1,
                 updatedAt := 1, isPaid := none, paidAt := none, paymentResult := none }],
    products := [], categories := [] }

/-- The store after two orders are created on the day of the epoch, at 06:00 with
`totalAmount` 10 and at 18:00 with `totalAmount` 5, and both are set to
`delivered`. -/
def boundaryStore : Store :=
  run sampleLibrary
    [Request.create { now := 21600000, newId := 0 }
      { completedScenarioPayload with totalAmount := some 10 },
     Request.create { now := 64800000, newId := 1 }
      { completedScenarioPayload with totalAmount := some 5 },
     Request.status 70000000 "000000000000000000000000" "delivered",
     Request.status 70000001 "000000000000000000000001" "delivered"] (emptyStore [] [])

/-- The clock of a report taken 30 days and 12 hours after the epoch, with no change
of the offset from UTC: its cut-off is 12:00 on the day of the epoch. -/
def boundaryClock : ReportClock := { now := 2635200000, offsetChange := 0 }

/-! ## Numerals and order numbers -/

/-- With enough fuel the digit loop of the core library puts the numeral of `n` in
front of the accumulator. -/
theorem toDigitsCore_eq (n : Nat) : ∀ (fuel : Nat) (ds : List Char), n < fuel →
    Nat.toDigitsCore 10 fuel n ds = Nat.toDigits 10 n ++ ds := by
  induction n using Nat.strong_induction_on with
  | _ n ih =>
    intro fuel ds hf
    obtain ⟨f, rfl⟩ : ∃ f, fuel = f + 1 := ⟨fuel - 1, by omega⟩
    unfold Nat.toDigits
    simp only [Nat.toDigitsCore]
    by_cases h0 : n / 10 = 0
    · simp [h0]
    · have hlt : n / 10 < n := by omega
      simp only [h0, if_false]
      rw [ih (n / 10) hlt f _ (by omega), ih (n / 10) hlt n _ hlt]
      simp

theorem toDigits_small (n : Nat) (h : n < 10) : Nat.toDigits 10 n = [Nat.digitChar n] := by
  unfold Nat.toDigits
  simp only [Nat.toDigitsCore]
  have : n / 10 = 0 := by omega
  simp [this, Nat.mod_eq_of_lt h]

theorem toDigits_step (n : Nat) (h : 10 ≤ n) :
    Nat.toDigits 10 n = Nat.toDigits 10 (n / 10) ++ [Nat.digitChar (n % 10)] := by
  have h0 : n / 10 ≠ 0 := by omega
  have hlt : n / 10 < n := by omega
  conv_lhs => unfold Nat.toDigits
  simp only [Nat.toDigitsCore, h0, if_false]
  exact toDigitsCore_eq (n / 10) n _ hlt

theorem digitChar_toNat (d : Nat) (h : d < 10) : (Nat.digitChar d).toNat - 48 = d := by
  interval_cases d <;> decide

theorem digitChar_isDecimalDigit (d : Nat) (h : d < 10) :
    isDecimalDigit (Nat.digitChar d) = true := by
  interval_cases d <;> decide

theorem digitChar_lt (a b : Nat) (hab : a < b) (hb : b < 10) :
    Nat.digitChar a < Nat.digitChar b := by
  interval_cases b <;> interval_cases a <;> decide

theorem decimalValue_append_singleton (cs : List Char) (c : Char) :
    decimalValue (cs ++ [c]) = 10 * decimalValue cs + (c.toNat - 48) := by
  simp [decimalValue, List.foldl_append]

theorem decimalValue_zeros (k : Nat) (cs : List Char) :
    decimalValue (List.replicate k '0' ++ cs) = decimalValue cs := by
  induction k with
  | zero => simp
  | succ k ih =>
    have : decimalValue (List.replicate k '0' ++ cs) = decimalValue cs := ih
    simp only [decimalValue, List.replicate_succ, List.cons_append, List.foldl_cons] at this ⊢
    simpa using this

theorem decimalValue_toDigits (n : Nat) : decimalValue (Nat.toDigits 10 n) = n := by
  induction n using Nat.strong_induction_on with
  | _ n ih =>
    by_cases h : n < 10
    · rw [toDigits_small n h]
      simp [decimalValue, digitChar_toNat n h]
    · rw [toDigits_step n (by omega), decimalValue_append_singleton, ih (n / 10) (by omega),
        digitChar_toNat _ (Nat.mod_lt _ (by decide))]
      omega

theorem toDigits_all_digits (n : Nat) : ∀ c ∈ Nat.toDigits 10 n, isDecimalDigit c = true := by
  induction n using Nat.strong_induction_on with
  | _ n ih =>
    by_cases h : n < 10
    · rw [toDigits_small n h]
      intro c hc
      simp only [List.mem_singleton] at hc
      subst hc
      exact digitChar_isDecimalDigit n h
    · rw [toDigits_step n (by omega)]
      intro c hc
      rcases List.mem_append.mp hc with hc | hc
      · exact ih (n / 10) (by omega) c hc
      · simp only [List.mem_singleton] at hc
        subst hc
        exact digitChar_isDecimalDigit _ (Nat.mod_lt _ (by decide))

theorem toDigits_length_le (w : Nat) : ∀ n, n < 10 ^ w → 0 < w → (Nat.toDigits 10 n).length ≤ w := by
  induction w with
  | zero => intro n _ h; omega
  | succ w ih =>
    intro n hn _
    by_cases h : n < 10
    · rw [toDigits_small n h]; simp
    · rw [toDigits_step n (by omega)]
      have hw : 0 < w := by
        rcases Nat.eq_zero_or_pos w with h0 | h0
        · subst h0; simp at hn; omega
        · exact h0
      have : n / 10 < 10 ^ w := by
        rw [Nat.div_lt_iff_lt_mul (by decide)]; rw [pow_succ] at hn; exact hn
      have := ih (n / 10) this hw
      simp; omega

theorem toDigits_length_gt (w : Nat) : ∀ n, 10 ^ w ≤ n → w < (Nat.toDigits 10 n).length := by
  induction w with
  | zero =>
    intro n _
    by_cases h : n < 10
    · rw [toDigits_small n h]; simp
    · rw [toDigits_step n (by omega)]; simp
  | succ w ih =>
    intro n hn
    have h10 : 10 ≤ n := by
      have : 1 ≤ 10 ^ w := Nat.one_le_pow _ _ (by decide)
      rw [pow_succ] at hn; omega
    rw [toDigits_step n h10]
    have : 10 ^ w ≤ n / 10 := by
      rw [Nat.le_div_iff_mul_le (by decide)]; rw [pow_succ] at hn; exact hn
    have := ih (n / 10) this
    simp; omega

/-- `padStart` with the one-character pad string 0 is the zero padding of the
specification. -/
theorem padStart_zero (m width : Nat) :
    padStart (jsString m) width "0" = zeroPadded m width := by
  unfold padStart zeroPadded jsString Nat.repr
  by_cases h : width ≤ (Nat.toDigits 10 m).length
  · have : width - (Nat.toDigits 10 m).length = 0 := by omega
    simp [h, this, List.asString]
  · have hne : ¬ (width ≤ (Nat.toDigits 10 m).asString.length ∨ ("0" : String).data = []) := by
      simp [List.asString] at h ⊢
      exact h
    rw [if_neg hne]
    simp only [List.asString, String.length]
    have hfl : ∀ k : Nat, ((List.replicate k ("0" : String).data).flatten).take k
        = List.replicate k '0' := by
      intro k
      have : ("0" : String).data = ['0'] := rfl
      rw [this]
      have h2 : (List.replicate k ['0']).flatten = List.replicate k '0' := by
        induction k with
        | zero => rfl
        | succ k ih => simp [List.replicate_succ, ih]
      rw [h2]
      simp
    rw [hfl]
    rfl

theorem fixedWidth_length (w m : Nat) : (fixedWidth w m).length = w := by
  induction w generalizing m with
  | zero => rfl
  | succ w ih => simp [fixedWidth, ih]

theorem fixedWidth_zero (w : Nat) : fixedWidth w 0 = List.replicate w '0' := by
  induction w with
  | zero => rfl
  | succ w ih =>
    simp only [fixedWidth, Nat.zero_div, Nat.zero_mod, ih]
    rw [List.replicate_succ']
    rfl

theorem zeros_toDigits_eq_fixedWidth (w : Nat) : ∀ m, 0 < w → m < 10 ^ w →
    List.replicate (w - (Nat.toDigits 10 m).length) '0' ++ Nat.toDigits 10 m = fixedWidth w m := by
  induction w with
  | zero => intro m h; omega
  | succ w ih =>
    intro m _ hm
    by_cases h : m < 10
    · rw [toDigits_small m h]
      have h0 : m / 10 = 0 := by omega
      simp [fixedWidth, h0, fixedWidth_zero, Nat.mod_eq_of_lt h]
    · have hw : 0 < w := by
        rcases Nat.eq_zero_or_pos w with h0 | h0
        · subst h0; simp at hm; omega
        · exact h0
      have hdiv : m / 10 < 10 ^ w := by
        rw [Nat.div_lt_iff_lt_mul (by decide)]; rw [pow_succ] at hm; exact hm
      rw [toDigits_step m (by omega)]
      simp only [fixedWidth, List.length_append, List.length_singleton]
      rw [← ih (m / 10) hw hdiv, List.append_assoc]
      congr 2
      omega

theorem lex_append_of_length_eq {p q : List Char} (h : List.Lex (· < ·) p q)
    (hl : p.length = q.length) (u v : List Char) : List.Lex (· < ·) (p ++ u) (q ++ v) := by
  induction h with
  | nil => simp at hl
  | cons _ ih => exact List.Lex.cons (ih (by simpa using hl))
  | rel hab => exact List.Lex.rel hab

theorem fixedWidth_lex (w : Nat) : ∀ a b, a < b → b < 10 ^ w →
    List.Lex (· < ·) (fixedWidth w a) (fixedWidth w b) := by
  induction w with
  | zero => intro a b hab hb; simp at hb; omega
  | succ w ih =>
    intro a b hab hb
    simp only [fixedWidth]
    have hdiv : b / 10 < 10 ^ w := by
      rw [Nat.div_lt_iff_lt_mul (by decide)]; rw [pow_succ] at hb; exact hb
    rcases Nat.lt_or_ge (a / 10) (b / 10) with h | h
    · exact lex_append_of_length_eq (ih _ _ h hdiv)
        (by rw [fixedWidth_length, fixedWidth_length]) _ _
    · have he : a / 10 = b / 10 := le_antisymm (Nat.div_le_div_right (le_of_lt hab)) h
      rw [he]
      apply List.Lex.append_left
      apply List.Lex.rel
      exact digitChar_lt _ _ (by omega) (Nat.mod_lt _ (by decide))

theorem orderNumberOf_data (n : Nat) :
    (orderNumberOf n).data = ['O', 'R', 'D'] ++
      (List.replicate (4 - (Nat.toDigits 10 (n + 1)).length) '0' ++ Nat.toDigits 10 (n + 1)) := by
  unfold orderNumberOf
  rw [padStart_zero]
  rfl

theorem orderNumberOf_injective (a b : Nat) (h : orderNumberOf a = orderNumberOf b) : a = b := by
  have hd := congrArg String.data h
  rw [orderNumberOf_data, orderNumberOf_data] at hd
  have h2 := congrArg decimalValue (List.append_cancel_left hd)
  rw [decimalValue_zeros, decimalValue_zeros, decimalValue_toDigits, decimalValue_toDigits] at h2
  omega

theorem orderNumberOf_lt (a b : Nat) (hab : a < b) (hb : b < 9999) :
    orderNumberOf a < orderNumberOf b := by
  rw [String.lt_iff_toList_lt]
  show (orderNumberOf a).data < (orderNumberOf b).data
  rw [orderNumberOf_data, orderNumberOf_data,
    zeros_toDigits_eq_fixedWidth 4 (a + 1) (by decide) (by omega),
    zeros_toDigits_eq_fixedWidth 4 (b + 1) (by decide) (by omega)]
  show List.Lex (· < ·) _ _
  exact List.Lex.append_left _ (fixedWidth_lex 4 _ _ (by omega) (by omega)) _

theorem orderNumberOf_ne_empty (n : Nat) : (orderNumberOf n).data ≠ [] := by
  rw [orderNumberOf_data]; simp

/-! ## Creation -/

theorem validateItem_ne_nil_of_castItem_none (i : Nat) (it : ItemPayload)
    (h : castItem it = none) : validateItem i it ≠ [] := by
  obtain ⟨product, productModel, name, quantity, price, image⟩ := it
  cases product <;> cases name <;> cases quantity <;> cases price <;>
    simp [castItem, validateItem, requiredString] at h ⊢

theorem validateItems_ne_nil_of_castItems_none (items : List ItemPayload) :
    ∀ i, castItems items = none → validateItems i items ≠ [] := by
  induction items with
  | nil => intro i h; simp [castItems] at h
  | cons it rest ih =>
    intro i h
    simp only [validateItems, ne_eq, List.append_eq_nil, not_and]
    intro hv
    cases hc : castItem it with
    | none => exact absurd hv (validateItem_ne_nil_of_castItem_none i it hc)
    | some o =>
      cases hr : castItems rest with
      | none => exact ih (i + 1) hr
      | some os => simp [castItems, hc, hr] at h

theorem validateDraft_ne_nil_of_buildOrder_none (env : CreateEnv) (d : OrderDraft)
    (h : buildOrder env d = none) : validateDraft d ≠ [] := by
  intro hv
  simp only [validateDraft, List.append_eq_nil] at hv
  obtain ⟨⟨⟨⟨⟨⟨⟨⟨_, hitems⟩, _⟩, hsub⟩, hcgst⟩, hsgst⟩, _⟩, htot⟩, _⟩ := hv
  cases hc : castItems d.orderItems with
  | none => exact validateItems_ne_nil_of_castItems_none _ 0 hc hitems
  | some items =>
    cases h1 : d.subtotal with
    | none => simp [validateAmount, h1] at hsub
    | some a =>
      cases h2 : d.cgst with
      | none => simp [validateAmount, h2] at hcgst
      | some b =>
        cases h3 : d.sgst with
        | none => simp [validateAmount, h3] at hsgst
        | some c =>
          cases h4 : d.totalAmount with
          | none => simp [validateAmount, h4] at htot
          | some e => simp [buildOrder, hc, h1, h2, h3, h4] at h

theorem saveNew_cases (env : CreateEnv) (d : OrderDraft) (db : Store) :
    (saveNew env d db = Except.error (SaveError.validation (validateDraft d)) ∧ validateDraft d ≠ [])
    ∨ (∃ o, buildOrder env d = some o ∧ validateDraft d = [] ∧
        (∃ x ∈ db.orders, x.orderNumber = o.orderNumber) ∧
        saveNew env d db = Except.error (SaveError.duplicateKey "E11000 duplicate key error"))
    ∨ (∃ o, buildOrder env d = some o ∧ validateDraft d = [] ∧
        (∀ x ∈ db.orders, x.orderNumber ≠ o.orderNumber) ∧
        saveNew env d db = Except.ok (o, { db with orders := db.orders ++ [o] })) := by
  unfold saveNew
  cases hb : buildOrder env d with
  | none => exact Or.inl ⟨rfl, validateDraft_ne_nil_of_buildOrder_none env d hb⟩
  | some o =>
    by_cases hv : validateDraft d = []
    · by_cases hd : db.orders.any (fun x => x.orderNumber == o.orderNumber) = true
      · refine Or.inr (Or.inl ⟨o, rfl, hv, ?_, ?_⟩)
        · simpa using hd
        · simp [hv, hd]
      · refine Or.inr (Or.inr ⟨o, rfl, hv, ?_, ?_⟩)
        · simpa using hd
        · simp [hv, hd]
    · exact Or.inl ⟨by simp [hv], hv⟩

theorem createOrder_cases (lib : Library) (env : CreateEnv) (body : OrderPayload) (db : Store) :
    (∃ errs, errs ≠ [] ∧
      createOrder lib env body db = (⟨400, Body.validationError "Validation Error" errs⟩, db) ∧
      (body.orderItems = none ∨ body.orderItems = some [] ∨ falsy body.cgst = true ∨
        falsy body.sgst = true ∨
        ∃ items, body.orderItems = some items ∧
          errs = validateDraft (creationDraft lib body items db.orders.length)))
    ∨ (∃ items, body.orderItems = some items ∧ items ≠ [] ∧
        falsy body.cgst = false ∧ falsy body.sgst = false ∧
        validateDraft (creationDraft lib body items db.orders.length) = [] ∧
        ((∃ msg, createOrder lib env body db = (⟨500, Body.failure "Error creating order" msg⟩, db) ∧
            ∃ x ∈ db.orders, x.orderNumber = orderNumberOf db.orders.length)
         ∨ (∃ o, buildOrder env (creationDraft lib body items db.orders.length) = some o ∧
              (∀ x ∈ db.orders, x.orderNumber ≠ o.orderNumber) ∧
              createOrder lib env body db =
                (⟨201, Body.order o⟩, { db with orders := db.orders ++ [o] })))) := by
  unfold createOrder
  cases hitems : body.orderItems with
  | none => exact Or.inl ⟨_, by simp, rfl, Or.inl rfl⟩
  | some items =>
    cases items with
    | nil => exact Or.inl ⟨_, by simp, rfl, Or.inr (Or.inl rfl)⟩
    | cons item rest =>
      by_cases hf : (falsy body.cgst || falsy body.sgst) = true
      · simp only [hf, if_true]
        refine Or.inl ⟨_, by simp, rfl, Or.inr (Or.inr ?_)⟩
        rcases Bool.or_eq_true _ _ ▸ hf with h | h
        · exact Or.inl h
        · exact Or.inr (Or.inl h)
      · simp only [hf]
        have hf2 : falsy body.cgst = false ∧ falsy body.sgst = false := by
          simpa using hf
        rcases saveNew_cases env (creationDraft lib body (item :: rest) db.orders.length) db with
          ⟨hs, hne⟩ | ⟨o, hb, hv, hdup, hs⟩ | ⟨o, hb, hv, hdup, hs⟩
        · left
          refine ⟨_, hne, ?_, Or.inr (Or.inr (Or.inr (Or.inr ⟨_, rfl, rfl⟩)))⟩
          simp only [creationDraft] at hs
          simp [hs, creationDraft]
        · right
          refine ⟨item :: rest, rfl, by simp, hf2.1, hf2.2, hv, Or.inl ?_⟩
          refine ⟨"E11000 duplicate key error", ?_, ?_⟩
          · simp only [creationDraft] at hs
            simp [hs]
          · obtain ⟨x, hx, hxo⟩ := hdup
            refine ⟨x, hx, ?_⟩
            rw [hxo]
            simp only [buildOrder, creationDraft] at hb
            split at hb
            · simp only [Option.some.injEq] at hb; rw [← hb]
            · simp at hb
        · right
          refine ⟨item :: rest, rfl, by simp, hf2.1, hf2.2, hv, Or.inr ⟨o, hb, hdup, ?_⟩⟩
          simp only [creationDraft] at hs
          simp only [Bool.false_eq_true, if_false, hs]
          have : schemaPaths o = o := by
            simp only [buildOrder] at hb
            split at hb
            · simp only [Option.some.injEq] at hb; rw [← hb]; rfl
            · simp at hb
          simp [jsonOrder, this]

theorem buildOrder_fields (env : CreateEnv) (d : OrderDraft) (o : Order)
    (h : buildOrder env d = some o) :
    o.orderNumber = d.orderNumber ∧ o.status = d.status ∧ o.isPaid = none ∧
    o.paidAt = none ∧ o.paymentResult = none ∧ o._id = env.newId ∧
    castItems d.orderItems = some o.orderItems ∧
    o.paymentMethod = paymentMethodOf d.paymentMethod := by
  simp only [buildOrder] at h
  split at h
  · rename_i hc _ _ _ _
    simp only [Option.some.injEq] at h
    subst h
    exact ⟨rfl, rfl, rfl, rfl, rfl, rfl, hc, rfl⟩
  · simp at h


/-! ## Reachable stores -/

theorem updateFirst_map_orderNumber (oid : ObjectId) (f : Order → Order) (l : List Order)
    (hf : ∀ o ∈ l, (f o).orderNumber = o.orderNumber) :
    (updateFirst oid f l).map (fun o => o.orderNumber) = l.map (fun o => o.orderNumber) := by
  induction l with
  | nil => rfl
  | cons o rest ih =>
    simp only [updateFirst]
    split
    · simp [hf o (List.mem_cons_self _ _)]
    · simp [ih (fun x hx => hf x (List.mem_cons_of_mem _ hx))]

theorem updateFirst_length (oid : ObjectId) (f : Order → Order) (l : List Order) :
    (updateFirst oid f l).length = l.length := by
  induction l with
  | nil => rfl
  | cons o rest ih =>
    simp only [updateFirst]
    split <;> simp [ih]

theorem updateFirst_found (oid : ObjectId) (g : Order → Order) (l : List Order) (found : Order)
    (h : l.find? (fun o => o._id == oid) = some found) :
    updateFirst oid (fun _ => g found) l = updateFirst oid g l := by
  induction l with
  | nil => rfl
  | cons o rest ih =>
    simp only [updateFirst]
    by_cases ho : o._id = oid
    · simp only [ho, if_true]
      rw [List.find?_cons_of_pos _ (by simpa using ho)] at h
      simp only [Option.some.injEq] at h
      rw [h]
    · simp only [ho, if_false]
      rw [List.find?_cons_of_neg _ (by simpa using ho)] at h
      rw [ih h]


theorem createOrder_numbered (lib : Library) (env : CreateEnv) (body : OrderPayload) (db : Store)
    (h : Numbered db) : Numbered (createOrder lib env body db).2 := by
  rcases createOrder_cases lib env body db with
    ⟨errs, _, he, _⟩ | ⟨items, _, _, _, _, _, ⟨msg, he, _⟩ | ⟨o, hb, _, he⟩⟩
  · rw [he]; exact h
  · rw [he]; exact h
  · rw [he]
    have ho : o.orderNumber = orderNumberOf db.orders.length := (buildOrder_fields _ _ _ hb).1
    unfold Numbered at h ⊢
    simp only [List.map_append, List.length_append, List.length_singleton, List.range_succ,
      List.map_cons, List.map_nil, h, ho]

theorem updateStatus_orders (lib : Library) (now : Nat) (id status : String) (db : Store) :
    (updateStatus lib now id status db).2.orders.map (fun o => o.orderNumber)
      = db.orders.map (fun o => o.orderNumber) := by
  unfold updateStatus
  cases lib.castObjectId id with
  | none => rfl
  | some oid =>
    simp only
    cases hfind : db.orders.find? (fun o => o._id == oid) with
    | none => rfl
    | some found =>
      simp only
      have hmap : (updateFirst oid (fun _ => { found with status := status, updatedAt := now })
          db.orders).map (fun o => o.orderNumber) = db.orders.map (fun o => o.orderNumber) := by
        rw [updateFirst_found oid (fun o => { o with status := status, updatedAt := now })
          db.orders found hfind]
        exact updateFirst_map_orderNumber _ _ _ (fun _ _ => rfl)
      split <;> exact hmap

theorem markPaid_store (lib : Library) (now : Nat) (id : String) (body : PaymentPayload)
    (db : Store) : (markPaid lib now id body db).2 = db := by
  unfold markPaid
  cases lib.castObjectId id with
  | none => rfl
  | some oid =>
    simp only
    cases db.orders.find? (fun o => o._id == oid) with
    | none => rfl
    | some found =>
      simp only [saveLoaded]
      split
      · rename_i heq
        split at heq
        · simp at heq
        · simp only [Except.ok.injEq, Prod.mk.injEq] at heq
          exact heq.2.symm
      · rfl
      · rfl

theorem handle_numbered (lib : Library) (r : Request) (db : Store) (h : Numbered db) :
    Numbered (handle lib r db).2 := by
  cases r with
  | create env body => exact createOrder_numbered lib env body db h
  | status now id status =>
    have hm := updateStatus_orders lib now id status db
    have hl := congrArg List.length hm
    simp only [List.length_map] at hl
    unfold Numbered at h ⊢
    simp only [handle]
    rw [hm, hl]
    exact h
  | pay now id body =>
    simp only [handle]
    rw [markPaid_store]
    exact h

theorem run_numbered (lib : Library) (rs : List Request) : ∀ db, Numbered db →
    Numbered (run lib rs db) := by
  induction rs with
  | nil => intro db h; exact h
  | cons r rs ih =>
    intro db h
    exact ih _ (handle_numbered lib r db h)

theorem reachable_numbered (lib : Library) (db : Store) (h : Reachable lib db) : Numbered db := by
  obtain ⟨products, categories, rs, rfl⟩ := h
  exact run_numbered lib rs _ rfl

theorem numbered_fresh (db : Store) (h : Numbered db) :
    ∀ x ∈ db.orders, x.orderNumber ≠ orderNumberOf db.orders.length := by
  intro x hx heq
  have hmem : x.orderNumber ∈ db.orders.map (fun o => o.orderNumber) :=
    List.mem_map.mpr ⟨x, hx, rfl⟩
  rw [h] at hmem
  obtain ⟨k, hk, hke⟩ := List.mem_map.mp hmem
  have := orderNumberOf_injective _ _ (hke.trans heq)
  rw [List.mem_range] at hk
  omega

theorem numbered_nodup (db : Store) (h : Numbered db) :
    (db.orders.map (fun o => o.orderNumber)).Nodup := by
  rw [h]
  exact (List.nodup_range _).map (fun a b hab => orderNumberOf_injective a b hab)

theorem numbered_increasing (db : Store) (h : Numbered db) (hlen : db.orders.length ≤ 9999) :
    db.orders.Pairwise (fun a b => a.orderNumber < b.orderNumber) := by
  have hp : (db.orders.map (fun o => o.orderNumber)).Pairwise (· < ·) := by
    rw [h, List.pairwise_map]
    refine (List.pairwise_lt_range _).imp_of_mem ?_
    intro a b _ hb hab
    rw [List.mem_range] at hb
    exact orderNumberOf_lt a b hab (by omega)
  exact List.pairwise_map.mp hp


/-! ## The scenario payload -/

theorem completed_validates (lib : Library) (n : Nat) (items : List ItemPayload)
    (h : completedScenarioPayload.orderItems = some items) :
    validateDraft (creationDraft lib completedScenarioPayload items n) = [] := by
  have hi : items = [{ scenarioItem with name := some "Paneer Tikka" }] := by
    simp only [completedScenarioPayload, Option.some.injEq] at h
    exact h.symm
  subst hi
  have hn : requiredString (some (orderNumberOf n)) = true := by
    simp [requiredString, orderNumberOf_ne_empty]
  have hitems : validateItems 0 (processOrderItems lib
      [{ scenarioItem with name := some "Paneer Tikka" }]) = [] := by
    cases hv : lib.isValid (some "507f1f77bcf86cd799439011") <;>
      simp [processOrderItems, scenarioItem, hv, validateItems, validateItem] <;> decide
  simp only [validateDraft, creationDraft, hn, hitems, if_true, List.nil_append]
  simp [completedScenarioPayload, scenarioPayload, paymentMethodOf, requiredString, validateAmount]

theorem createOrder_completed (lib : Library) (env : CreateEnv) (db : Store) (h : Numbered db) :
    ∃ o, createOrder lib env completedScenarioPayload db =
      (⟨201, Body.order o⟩, { db with orders := db.orders ++ [o] }) := by
  rcases createOrder_cases lib env completedScenarioPayload db with
    ⟨errs, hne, _, hr⟩ | ⟨items, _, _, _, _, _, ⟨msg, _, x, hx, hxe⟩ | ⟨o, _, _, he⟩⟩
  · exfalso
    rcases hr with hr | hr | hr | hr | ⟨items, hi, he⟩
    · simp [completedScenarioPayload] at hr
    · simp [completedScenarioPayload] at hr
    · revert hr; decide
    · revert hr; decide
    · exact hne (he.trans (completed_validates lib _ items hi))
  · exact absurd hxe (numbered_fresh db h x hx)
  · exact ⟨o, he⟩

theorem storeAfter_succ (n : Nat) :
    storeAfter (n + 1) =
      (createOrder sampleLibrary (envAt n) completedScenarioPayload (storeAfter n)).2 := by
  simp [storeAfter, run, List.range_succ, List.foldl_append, handle]

theorem storeAfter_reachable (n : Nat) : Reachable sampleLibrary (storeAfter n) :=
  ⟨[], [], _, rfl⟩

theorem storeAfter_length (n : Nat) : (storeAfter n).orders.length = n := by
  induction n with
  | zero => rfl
  | succ n ih =>
    obtain ⟨o, ho⟩ := createOrder_completed sampleLibrary (envAt n) (storeAfter n)
      (reachable_numbered _ _ (storeAfter_reachable n))
    rw [storeAfter_succ, ho]
    simp [ih]


theorem orderNumberOf_eq (n : Nat) : orderNumberOf n = "ORD" ++ zeroPadded (n + 1) 4 := by
  unfold orderNumberOf
  rw [padStart_zero]

theorem created_orderNumber (lib : Library) (env : CreateEnv) (body : OrderPayload)
    (db : Store) (o : Order) (db' : Store)
    (h : createOrder lib env body db = (⟨201, Body.order o⟩, db')) :
    o.orderNumber = orderNumberOf db.orders.length ∧ o.status = "pending" ∧ o.isPaid = none ∧
    db' = { db with orders := db.orders ++ [o] } ∧
    ∃ items, body.orderItems = some items ∧
      castItems (processOrderItems lib items) = some o.orderItems := by
  rcases createOrder_cases lib env body db with
    ⟨errs, _, he, _⟩ | ⟨items, hi, _, _, _, _, ⟨msg, he, _⟩ | ⟨o', hb, _, he⟩⟩
  · rw [he] at h; simp at h
  · rw [he] at h; simp at h
  · rw [he] at h
    simp only [Prod.mk.injEq, Response.mk.injEq, Body.order.injEq, true_and] at h
    obtain ⟨ho, hdb⟩ := h
    subst ho
    obtain ⟨h1, h2, h3, _, _, _, h7, _⟩ := buildOrder_fields _ _ _ hb
    exact ⟨h1, h2, h3, hdb.symm, items, hi, h7⟩

/-! ## The claims -/

/-- C1: for every count `n` of persisted orders read at creation time, the order
number assigned by order creation is ORD followed by the decimal numeral of `n + 1`
padded on the left with zeros to width 4; the counts 0 and 41 give ORD0001 and
ORD0042. -/
theorem orderNumber_is_zero_padded (n : Nat) :
    orderNumberOf n = "ORD" ++ zeroPadded (n + 1) 4 ∧
    orderNumberOf 0 = "ORD0001" ∧ orderNumberOf 41 = "ORD0042" ∧
    ∀ (lib : Library) (env : CreateEnv) (body : OrderPayload) (db : Store) (o : Order)
      (db' : Store), db.orders.length = n →
      createOrder lib env body db = (⟨201, Body.order o⟩, db') →
      o.orderNumber = "ORD" ++ zeroPadded (n + 1) 4 := by
  refine ⟨orderNumberOf_eq n, by decide, by decide, ?_⟩
  intro lib env body db o db' hn h
  rw [(created_orderNumber lib env body db o db' h).1, hn]
  exact orderNumberOf_eq n

/-- Witness of C1: the first creation on an empty collection is numbered from the
count 0. -/
theorem orderNumber_is_zero_padded_witness :
    (emptyStore [] []).orders.length = 0 ∧
    ∃ o db', createOrder sampleLibrary (envAt 0) completedScenarioPayload (emptyStore [] [])
        = (⟨201, Body.order o⟩, db') ∧
      o.orderNumber = "ORD" ++ zeroPadded 1 4 := by
  obtain ⟨o, ho⟩ := createOrder_completed sampleLibrary (envAt 0) (emptyStore [] []) rfl
  exact ⟨rfl, o, _, ho,
    (orderNumber_is_zero_padded 0).2.2.2 sampleLibrary (envAt 0) completedScenarioPayload
      (emptyStore [] []) o _ rfl ho⟩

/-- C2, counterexample: with 9999 orders persisted, the accepted scenario payload is
numbered ORD10000, which is not ORD followed by exactly four digits. -/
theorem four_digits_counterexample :
    ∃ o db', createOrder sampleLibrary (envAt 9999) completedScenarioPayload (storeAfter 9999)
        = (⟨201, Body.order o⟩, db') ∧
      o.orderNumber = "ORD10000" ∧
      ¬ ∃ ds : List Char, o.orderNumber = "ORD" ++ String.mk ds ∧ ds.length = 4 := by
  obtain ⟨o, ho⟩ := createOrder_completed sampleLibrary (envAt 9999) (storeAfter 9999)
    (reachable_numbered _ _ (storeAfter_reachable 9999))
  have hn : o.orderNumber = "ORD10000" := by
    rw [(created_orderNumber _ _ _ _ _ _ ho).1, storeAfter_length]
    decide
  refine ⟨o, _, ho, hn, ?_⟩
  rintro ⟨ds, hds, hlen⟩
  rw [hn] at hds
  have hl := congrArg String.length hds
  rw [String.length_append] at hl
  have h8 : ("ORD10000" : String).length = 8 := by decide
  have h3 : ("ORD" : String).length = 3 := by decide
  have hd : (String.mk ds).length = ds.length := rfl
  omega

/-- C2, amended: the order number of an accepted creation is ORD followed by decimal
digits only, at least four of them, and exactly four precisely when fewer than 9999
orders are persisted at creation time. -/
theorem orderNumber_digits (lib : Library) (env : CreateEnv) (body : OrderPayload)
    (db : Store) (o : Order) (db' : Store)
    (h : createOrder lib env body db = (⟨201, Body.order o⟩, db')) :
    ∃ ds : List Char, o.orderNumber = "ORD" ++ String.mk ds ∧
      (∀ c ∈ ds, isDecimalDigit c = true) ∧ 4 ≤ ds.length ∧
      (ds.length = 4 ↔ db.orders.length < 9999) := by
  refine ⟨List.replicate (4 - (Nat.toDigits 10 (db.orders.length + 1)).length) '0'
    ++ Nat.toDigits 10 (db.orders.length + 1), ?_, ?_, ?_, ?_⟩
  · rw [(created_orderNumber lib env body db o db' h).1, orderNumberOf_eq]
    rfl
  · intro c hc
    rcases List.mem_append.mp hc with hc | hc
    · rw [(List.mem_replicate.mp hc).2]; decide
    · exact toDigits_all_digits _ c hc
  · simp only [List.length_append, List.length_replicate]
    omega
  · simp only [List.length_append, List.length_replicate]
    constructor
    · intro hl
      by_contra hge
      have := toDigits_length_gt 4 (db.orders.length + 1) (by omega)
      omega
    · intro hlt
      have := toDigits_length_le 4 (db.orders.length + 1) (by omega) (by decide)
      omega

/-- Witness of C2 (amended): the first creation on an empty collection. -/
theorem orderNumber_digits_witness :
    ∃ o db', createOrder sampleLibrary (envAt 0) completedScenarioPayload (emptyStore [] [])
        = (⟨201, Body.order o⟩, db') ∧
      ∃ ds : List Char, o.orderNumber = "ORD" ++ String.mk ds ∧
        (∀ c ∈ ds, isDecimalDigit c = true) ∧ 4 ≤ ds.length ∧
        (ds.length = 4 ↔ (emptyStore [] []).orders.length < 9999) := by
  obtain ⟨o, ho⟩ := createOrder_completed sampleLibrary (envAt 0) (emptyStore [] []) rfl
  exact ⟨o, _, ho, orderNumber_digits sampleLibrary (envAt 0) completedScenarioPayload
    (emptyStore [] []) o _ ho⟩


/-- C3: in every store reachable from an empty collection by creations, status
updates and payment updates handled one after the other, no two persisted orders
have the same order number, the number generated for the next creation is carried
by no persisted order, and an accepted creation stores an order whose number differs
from that of every order created before. -/
theorem orderNumbers_unique (lib : Library) (db : Store) (h : Reachable lib db) :
    (db.orders.map (fun o => o.orderNumber)).Nodup ∧
    (∀ x ∈ db.orders, x.orderNumber ≠ orderNumberOf db.orders.length) ∧
    ∀ (env : CreateEnv) (body : OrderPayload) (o : Order) (db' : Store),
      createOrder lib env body db = (⟨201, Body.order o⟩, db') →
      ∀ x ∈ db.orders, x.orderNumber ≠ o.orderNumber := by
  have hn := reachable_numbered lib db h
  refine ⟨numbered_nodup db hn, numbered_fresh db hn, ?_⟩
  intro env body o db' hc x hx
  rw [(created_orderNumber lib env body db o db' hc).1]
  exact numbered_fresh db hn x hx

/-- Witness of C3: the store after two creations. -/
theorem orderNumbers_unique_witness :
    Reachable sampleLibrary (storeAfter 2) ∧
    ((storeAfter 2).orders.map (fun o => o.orderNumber)).Nodup ∧
    (∀ x ∈ (storeAfter 2).orders, x.orderNumber ≠ orderNumberOf (storeAfter 2).orders.length) :=
  ⟨storeAfter_reachable 2,
    (orderNumbers_unique sampleLibrary (storeAfter 2) (storeAfter_reachable 2)).1,
    (orderNumbers_unique sampleLibrary (storeAfter 2) (storeAfter_reachable 2)).2.1⟩

theorem storeAfter_orderNumber (n i : Nat) (hi : i < n) :
    ∃ a, (storeAfter n).orders[i]? = some a ∧ a.orderNumber = orderNumberOf i := by
  have hnum := reachable_numbered _ _ (storeAfter_reachable n)
  have hlen := storeAfter_length n
  have hlt : i < (storeAfter n).orders.length := by omega
  refine ⟨(storeAfter n).orders[i], List.getElem?_eq_getElem hlt, ?_⟩
  have h1 : ((storeAfter n).orders.map (fun o => o.orderNumber))[i]? =
      some ((storeAfter n).orders[i]).orderNumber := by
    simp [List.getElem?_eq_getElem hlt]
  unfold Numbered at hnum
  rw [hnum, hlen] at h1
  simp [List.getElem?_range hi] at h1
  simpa using h1.symm

/-- C4, counterexample: after 10000 creations the order created last carries
ORD10000, which as a string is smaller than the ORD9999 of the order created just
before it. -/
theorem string_order_counterexample :
    ∃ a b, (storeAfter 10000).orders[9998]? = some a ∧
      (storeAfter 10000).orders[9999]? = some b ∧
      a.orderNumber = "ORD9999" ∧ b.orderNumber = "ORD10000" ∧
      b.orderNumber < a.orderNumber := by
  obtain ⟨a, ha, hna⟩ := storeAfter_orderNumber 10000 9998 (by decide)
  obtain ⟨b, hb, hnb⟩ := storeAfter_orderNumber 10000 9999 (by decide)
  have h1 : orderNumberOf 9998 = "ORD9999" := by decide
  have h2 : orderNumberOf 9999 = "ORD10000" := by decide
  refine ⟨a, b, ha, hb, hna.trans h1, hnb.trans h2, ?_⟩
  rw [hna, hnb, h1, h2, String.lt_iff_toList_lt]
  decide

/-- C4, amended: in every store reachable from an empty collection that holds at
most 9999 orders, of any two orders the one created earlier has the strictly
smaller order number as a string, so sorting the orders by order number reproduces
creation order. -/
theorem orderNumbers_increasing (lib : Library) (db : Store) (h : Reachable lib db)
    (hlen : db.orders.length ≤ 9999) :
    db.orders.Pairwise (fun a b => a.orderNumber < b.orderNumber) ∧
    List.insertionSort (fun a b => a.orderNumber ≤ b.orderNumber) db.orders = db.orders := by
  have hp := numbered_increasing db (reachable_numbered lib db h) hlen
  exact ⟨hp, List.Sorted.insertionSort_eq (hp.imp (fun hab => le_of_lt hab))⟩

/-- Witness of C4 (amended): the store after two creations. -/
theorem orderNumbers_increasing_witness :
    Reachable sampleLibrary (storeAfter 2) ∧ (storeAfter 2).orders.length ≤ 9999 ∧
    (storeAfter 2).orders.Pairwise (fun a b => a.orderNumber < b.orderNumber) :=
  ⟨storeAfter_reachable 2, by rw [storeAfter_length]; decide,
    (orderNumbers_increasing sampleLibrary (storeAfter 2) (storeAfter_reachable 2)
      (by rw [storeAfter_length]; decide)).1⟩

theorem validateItems_processed_ne_nil (lib : Library) (items : List ItemPayload)
    (it : ItemPayload) (hmem : it ∈ items)
    (hbad : (∃ q, it.quantity = some q ∧ q < 1) ∨ (∃ p, it.price = some p ∧ p < 0)) :
    ∀ i, validateItems i (processOrderItems lib items) ≠ [] := by
  induction items with
  | nil => simp at hmem
  | cons x rest ih =>
    intro i hnil
    simp only [processOrderItems, List.map_cons, validateItems, List.append_eq_nil] at hnil
    rcases List.mem_cons.mp hmem with rfl | hr
    · have h1 := hnil.1
      simp only [validateItem, List.append_eq_nil] at h1
      rcases hbad with ⟨q, hq, hlt⟩ | ⟨p, hp, hlt⟩
      · have := h1.1.2
        simp [hq, hlt] at this
      · have := h1.2
        simp [hp, hlt] at this
    · exact ih hr (i + 1) hnil.2

/-- C5: a creation payload whose `orderItems` is absent or empty, or whose `cgst` or
`sgst` is absent or zero, or one of whose line items has a quantity below 1 or a
negative price, is answered with status 400 and the body
`{message: 'Validation Error', errors}` with a non-empty list of errors, never with
201, whatever the store. -/
theorem createOrder_rejects (lib : Library) (env : CreateEnv) (body : OrderPayload) (db : Store)
    (h : body.orderItems = none ∨ body.orderItems = some [] ∨
      body.cgst = none ∨ body.cgst = some 0 ∨ body.sgst = none ∨ body.sgst = some 0 ∨
      ∃ items it, body.orderItems = some items ∧ it ∈ items ∧
        ((∃ q, it.quantity = some q ∧ q < 1) ∨ (∃ p, it.price = some p ∧ p < 0))) :
    (createOrder lib env body db).1.status = 400 ∧
    (createOrder lib env body db).1.status ≠ 201 ∧
    ∃ errs, errs ≠ [] ∧
      (createOrder lib env body db).1.body = Body.validationError "Validation Error" errs := by
  rcases createOrder_cases lib env body db with
    ⟨errs, hne, he, _⟩ | ⟨items, hi, hin, hc, hs, hv, _⟩
  · rw [he]
    exact ⟨rfl, by simp, errs, hne, rfl⟩
  · exfalso
    rcases h with h | h | h | h | h | h | ⟨items', it, hi', hmem, hbad⟩
    · rw [h] at hi; simp at hi
    · rw [h] at hi; simp only [Option.some.injEq] at hi; exact hin hi.symm
    · rw [h] at hc; simp [falsy] at hc
    · rw [h] at hc; simp [falsy] at hc
    · rw [h] at hs; simp [falsy] at hs
    · rw [h] at hs; simp [falsy] at hs
    · rw [hi'] at hi
      simp only [Option.some.injEq] at hi
      subst hi
      simp only [validateDraft, creationDraft, List.append_eq_nil] at hv
      exact validateItems_processed_ne_nil lib items' it hmem hbad 0 hv.1.1.1.1.1.1.1.2

/-- Witness of C5: the completed scenario payload with the quantity of its item
lowered to 0. -/
theorem createOrder_rejects_witness :
    (createOrder sampleLibrary (envAt 0)
      { completedScenarioPayload with
        orderItems := some [{ scenarioItem with name := some "Paneer Tikka", quantity := some 0 }] }
      (emptyStore [] [])).1.status = 400 :=
  (createOrder_rejects sampleLibrary (envAt 0)
    { completedScenarioPayload with
      orderItems := some [{ scenarioItem with name := some "Paneer Tikka", quantity := some 0 }] }
    (emptyStore [] [])
    (Or.inr (Or.inr (Or.inr (Or.inr (Or.inr (Or.inr
      ⟨_, _, rfl, List.mem_singleton.mpr rfl, Or.inl ⟨0, rfl, by decide⟩⟩))))))).1

/-- C6: a creation answered with a validation failure (400) leaves the store as it
was: no order is stored and the count that numbers the next order is unchanged. -/
theorem createOrder_rejected_store (lib : Library) (env : CreateEnv) (body : OrderPayload)
    (db : Store) (h : (createOrder lib env body db).1.status = 400) :
    (createOrder lib env body db).2 = db ∧
    (createOrder lib env body db).2.orders.length = db.orders.length ∧
    orderNumberOf (createOrder lib env body db).2.orders.length
      = orderNumberOf db.orders.length := by
  have hdb : (createOrder lib env body db).2 = db := by
    rcases createOrder_cases lib env body db with
      ⟨errs, _, he, _⟩ | ⟨items, _, _, _, _, _, ⟨msg, he, _⟩ | ⟨o, _, _, he⟩⟩
    · rw [he]
    · rw [he]
    · rw [he] at h; simp at h
  rw [hdb]
  exact ⟨rfl, rfl, rfl⟩

/-- Witness of C6: the scenario payload as the specification lists it, on the store
after two creations. -/
theorem createOrder_rejected_store_witness :
    (createOrder sampleLibrary (envAt 2) scenarioPayload (storeAfter 2)).1.status = 400 ∧
    (createOrder sampleLibrary (envAt 2) scenarioPayload (storeAfter 2)).2 = storeAfter 2 :=
  ⟨by decide,
    (createOrder_rejected_store sampleLibrary (envAt 2) scenarioPayload (storeAfter 2)
      (by decide)).1⟩


/-- C7, counterexample: the scenario payload with the fields the specification
lists (no item name, no subtotal) is answered with 400, over the catalog that holds
the product it refers to. -/
theorem scenario_counterexample :
    createOrder sampleLibrary (envAt 0) scenarioPayload scenarioCatalog =
      (⟨400, Body.validationError "Validation Error"
        [ValidatorError.required "orderItems.0.name", ValidatorError.required "subtotal"]⟩,
       scenarioCatalog) := by
  decide

/-- C7, amended: in a store reachable from an empty collection, a creation that is
not rejected with a validation failure is answered with 201 and stores an order with
status `pending`, whatever status value the payload carries, and `isPaid` unset; the
scenario payload is accepted once it also carries the two required fields it leaves
out, a name for its item and the subtotal. -/
theorem accepted_order_pending :
    (∀ (lib : Library) (env : CreateEnv) (body : OrderPayload) (db : Store),
      Reachable lib db → (createOrder lib env body db).1.status ≠ 400 →
      (createOrder lib env body db).1.status = 201 ∧
      ∃ o, createOrder lib env body db =
          (⟨201, Body.order o⟩, { db with orders := db.orders ++ [o] }) ∧
        o.status = "pending" ∧ o.isPaid = none) ∧
    (∀ (lib : Library) (env : CreateEnv) (db : Store), Reachable lib db →
      (createOrder lib env completedScenarioPayload db).1.status = 201) := by
  constructor
  · intro lib env body db hr h
    rcases createOrder_cases lib env body db with
      ⟨errs, _, he, _⟩ | ⟨items, _, _, _, _, _, ⟨msg, _, x, hx, hxe⟩ | ⟨o, _, _, he⟩⟩
    · rw [he] at h; simp at h
    · exact absurd hxe (numbered_fresh db (reachable_numbered lib db hr) x hx)
    · obtain ⟨_, h2, h3, _⟩ := created_orderNumber lib env body db o _ he
      refine ⟨by rw [he], o, he, h2, h3⟩
  · intro lib env db hr
    obtain ⟨o, ho⟩ := createOrder_completed lib env db (reachable_numbered lib db hr)
    rw [ho]

/-- Witness of C7 (amended): the completed scenario payload, sent with the status
`delivered`, over the scenario catalog. -/
theorem accepted_order_pending_witness :
    Reachable sampleLibrary scenarioCatalog ∧
    (createOrder sampleLibrary (envAt 0)
      { completedScenarioPayload with status := some "delivered" } scenarioCatalog).1.status = 201 ∧
    ∃ o, createOrder sampleLibrary (envAt 0)
        { completedScenarioPayload with status := some "delivered" } scenarioCatalog =
        (⟨201, Body.order o⟩, { scenarioCatalog with orders := scenarioCatalog.orders ++ [o] }) ∧
      o.status = "pending" ∧ o.isPaid = none :=
  ⟨⟨_, _, [], rfl⟩,
    accepted_order_pending.1 sampleLibrary (envAt 0)
      { completedScenarioPayload with status := some "delivered" } scenarioCatalog
      ⟨_, _, [], rfl⟩ (by decide)⟩

/-- C8: the item normaliser maps the submitted items to a list of the same length
and order in which each item keeps its submitted product, name, quantity, price and
image, and carries the kind tag `Product` exactly when its product reference has the
identifier format and `TempProduct` otherwise, whatever tag the client sent. -/
theorem processOrderItems_normalises (lib : Library) (items : List ItemPayload) :
    (processOrderItems lib items).length = items.length ∧
    List.Forall₂ (fun it it' =>
      it'.product = it.product ∧ it'.name = it.name ∧ it'.quantity = it.quantity ∧
      it'.price = it.price ∧ it'.image = it.image ∧
      (it'.productModel = some "Product" ↔ lib.isValid it.product = true) ∧
      (it'.productModel = some "TempProduct" ↔ lib.isValid it.product = false))
      items (processOrderItems lib items) := by
  refine ⟨by simp [processOrderItems], ?_⟩
  induction items with
  | nil => exact List.Forall₂.nil
  | cons it rest ih =>
    refine List.Forall₂.cons ?_ ih
    refine ⟨rfl, rfl, rfl, rfl, rfl, ?_, ?_⟩ <;>
      cases hv : lib.isValid it.product <;> simp [hv]

theorem castItems_processed_tag (lib : Library) (items : List ItemPayload) :
    ∀ stored, castItems (processOrderItems lib items) = some stored →
      ∀ it ∈ stored, (∃ s, it.product = ProductRef.text s) ∧ it.productModel =
        (if lib.isValid it.product.submitted = true then "Product" else "TempProduct") := by
  induction items with
  | nil =>
    intro stored h it hit
    simp [processOrderItems, castItems] at h
    subst h
    simp at hit
  | cons x rest ih =>
    intro stored h it hit
    simp only [processOrderItems, List.map_cons, castItems] at h
    split at h
    · rename_i o os ho hos
      simp only [Option.some.injEq] at h
      subst h
      rcases List.mem_cons.mp hit with rfl | hr
      · simp only [castItem] at ho
        split at ho
        · rename_i hp _ _ _
          simp only [Option.some.injEq] at ho
          subst ho
          exact ⟨⟨_, rfl⟩, by simp only [Option.getD_some, hp, ProductRef.submitted]⟩
        · simp at ho
      · exact ih os hos it hr
    · simp at h

/-- C9, counterexample: over an empty catalog the item of the completed scenario
payload is stored with the tag `Product` although its reference resolves to no
product. -/
theorem tag_resolves_counterexample :
    ∃ o db' it, createOrder sampleLibrary (envAt 0) completedScenarioPayload (emptyStore [] [])
        = (⟨201, Body.order o⟩, db') ∧
      it ∈ o.orderItems ∧ it.productModel = "Product" ∧
      resolves sampleLibrary (emptyStore [] []) it.product = false :=
  ⟨{ _id := 0, orderNumber := "ORD0001", customer := { name := "Guest", phone := "0000000000" },
     orderItems := [{ product := ProductRef.text "507f1f77bcf86cd799439011", productModel := "Product",
                      name := "Paneer Tikka", quantity := 2, price := 100, image := none }],
     paymentMethod := "cash", subtotal := 200, cgst := 9, sgst := 9, deliveryCharge := 0,
     totalAmount := 218, status := "pending", createdAt := 0, updatedAt := 0,
     isPaid := none, paidAt := none, paymentResult := none },
   { orders := [{ _id := 0, orderNumber := "ORD0001",
                  customer := { name := "Guest", phone := "0000000000" },
                  orderItems := [{ product := ProductRef.text "507f1f77bcf86cd799439011", productModel := "Product",
                                   name := "Paneer Tikka", quantity := 2, price := 100,
                                   image := none }],
                  paymentMethod := "cash", subtotal := 200, cgst := 9, sgst := 9,
                  deliveryCharge := 0, totalAmount := 218, status := "pending", createdAt := 0,
                  updatedAt := 0, isPaid := none, paidAt := none, paymentResult := none }],
     products := [], categories := [] },
   { product := ProductRef.text "507f1f77bcf86cd799439011", productModel := "Product",
     name := "Paneer Tikka", quantity := 2, price := 100, image := none },
   by decide, by decide, rfl, by decide⟩

/-- C9, amended: every line item of an order persisted by order creation is tagged
`Product` if and only if its product reference has the identifier format, and
`TempProduct` otherwise; so an item whose reference resolves to a product of the
Catalog Store is tagged `Product`, while the tag `Product` does not say that the
product exists. -/
theorem stored_tag_follows_format (lib : Library) (env : CreateEnv) (body : OrderPayload)
    (db : Store) (o : Order) (db' : Store)
    (h : createOrder lib env body db = (⟨201, Body.order o⟩, db')) :
    ∀ it ∈ o.orderItems,
      (it.productModel = "Product" ↔ lib.isValid it.product.submitted = true) ∧
      (it.productModel = "TempProduct" ↔ lib.isValid it.product.submitted = false) ∧
      (resolves lib db it.product = true → it.productModel = "Product") := by
  intro it hit
  obtain ⟨_, _, _, _, items, _, hc⟩ := created_orderNumber lib env body db o db' h
  obtain ⟨⟨s, hs⟩, ht⟩ := castItems_processed_tag lib items o.orderItems hc it hit
  have hres : resolves lib db it.product = true → lib.isValid it.product.submitted = true := by
    intro hr
    rw [hs] at hr ⊢
    simp only [resolves, Library.refId] at hr
    simp only [Library.isValid, ProductRef.submitted]
    cases hcast : lib.castObjectId s with
    | none => simp [hcast] at hr
    | some oid => rfl
  cases hv : lib.isValid it.product.submitted
  · simp only [hv, Bool.false_eq_true, if_false] at ht
    refine ⟨by simp [ht], by simp [ht], ?_⟩
    intro hr
    have := hres hr
    simp [hv] at this
  · simp only [hv, if_true] at ht
    exact ⟨by simp [ht], by simp [ht], fun _ => ht⟩

/-- Witness of C9 (amended): the order created from the completed scenario payload
over the scenario catalog. -/
theorem stored_tag_follows_format_witness :
    ∃ o db', createOrder sampleLibrary (envAt 0) completedScenarioPayload scenarioCatalog
        = (⟨201, Body.order o⟩, db') ∧
      ∀ it ∈ o.orderItems,
        (it.productModel = "Product" ↔ sampleLibrary.isValid it.product.submitted = true) ∧
        (it.productModel = "TempProduct" ↔ sampleLibrary.isValid it.product.submitted = false) ∧
        (resolves sampleLibrary scenarioCatalog it.product = true → it.productModel = "Product") := by
  obtain ⟨o, ho⟩ := createOrder_completed sampleLibrary (envAt 0) scenarioCatalog rfl
  exact ⟨o, _, ho, stored_tag_follows_format sampleLibrary (envAt 0) completedScenarioPayload
    scenarioCatalog o _ ho⟩

/-- C10, the code at the failing input: a status update of an existing order to
`shipped`, which is none of the four status values, is answered with 200 and
persisted; and no status update is ever answered with 400. -/
theorem updateStatus_not_validated :
    ((updateStatus sampleLibrary 7 "000000000000000000000000" "shipped" (storeAfter 1)).1.status
        = 200 ∧
      (updateStatus sampleLibrary 7 "000000000000000000000000" "shipped"
        (storeAfter 1)).2.orders.map (fun o => o.status) = ["shipped"]) ∧
    ∀ (lib : Library) (now : Nat) (id status : String) (db : Store),
      (updateStatus lib now id status db).1.status ≠ 400 := by
  refine ⟨⟨by decide, by decide⟩, ?_⟩
  intro lib now id status db
  unfold updateStatus
  cases lib.castObjectId id with
  | none => simp
  | some oid =>
    simp only
    cases db.orders.find? (fun o => o._id == oid) with
    | none => simp
    | some found =>
      simp only
      split <;> simp


/-! ## Status updates, lookups and payment updates -/

theorem find_split (oid : ObjectId) (l : List Order) (found : Order)
    (h : l.find? (fun o => o._id == oid) = some found) :
    ∃ pre post, l = pre ++ found :: post ∧ found._id = oid ∧ (∀ x ∈ pre, x._id ≠ oid) ∧
      ∀ g : Order → Order, updateFirst oid g l = pre ++ g found :: post := by
  induction l with
  | nil => simp at h
  | cons o rest ih =>
    by_cases ho : o._id = oid
    · rw [List.find?_cons_of_pos _ (by simpa using ho)] at h
      simp only [Option.some.injEq] at h
      subst h
      exact ⟨[], rest, rfl, ho, by simp, fun g => by simp [updateFirst, ho]⟩
    · rw [List.find?_cons_of_neg _ (by simpa using ho)] at h
      obtain ⟨pre, post, hl, hf, hpre, hup⟩ := ih h
      refine ⟨o :: pre, post, by simp [hl], hf, ?_, ?_⟩
      · intro x hx
        rcases List.mem_cons.mp hx with rfl | hx
        · exact ho
        · exact hpre x hx
      · intro g
        simp [updateFirst, ho, hup g]

/-- C11: a successful status update changes, of the addressed order, the status and
the last-modification instant only (order number, customer, line items, payment
method, the monetary fields and every other field are those of the order before),
and leaves every other persisted order, and the catalog, unchanged. -/
theorem updateStatus_frame (lib : Library) (now : Nat) (id status : String) (db : Store)
    (h : (updateStatus lib now id status db).1.status = 200) :
    ∃ oid pre found post, lib.castObjectId id = some oid ∧
      db.orders = pre ++ found :: post ∧ found._id = oid ∧ (∀ x ∈ pre, x._id ≠ oid) ∧
      (updateStatus lib now id status db).2 =
        { db with orders := pre ++ { found with status := status, updatedAt := now } :: post } := by
  unfold updateStatus at h ⊢
  cases hc : lib.castObjectId id with
  | none => simp [hc] at h
  | some oid =>
    simp only [hc] at h ⊢
    cases hfind : db.orders.find? (fun o => o._id == oid) with
    | none => simp [hfind] at h
    | some found =>
      simp only [hfind] at h ⊢
      obtain ⟨pre, post, hl, hf, hpre, hup⟩ := find_split oid db.orders found hfind
      refine ⟨oid, pre, found, post, rfl, hl, hf, hpre, ?_⟩
      have hup' := hup (fun _ => { found with status := status, updatedAt := now })
      split <;> simp [hup']

/-- Witness of C11: the order of the store after one creation is set to
`delivered`. -/
theorem updateStatus_frame_witness :
    (updateStatus sampleLibrary 7 "000000000000000000000000" "delivered"
      (storeAfter 1)).1.status = 200 ∧
    ∃ oid pre found post, sampleLibrary.castObjectId "000000000000000000000000" = some oid ∧
      (storeAfter 1).orders = pre ++ found :: post ∧ found._id = oid ∧
      (∀ x ∈ pre, x._id ≠ oid) ∧
      (updateStatus sampleLibrary 7 "000000000000000000000000" "delivered" (storeAfter 1)).2 =
        { storeAfter 1 with
          orders := pre ++ { found with status := "delivered", updatedAt := 7 } :: post } :=
  ⟨by decide,
    updateStatus_frame sampleLibrary 7 "000000000000000000000000" "delivered" (storeAfter 1)
      (by decide)⟩

/-- C12, counterexample: a lookup with the malformed identifier `abc` is answered
with 500, not 404. -/
theorem findById_malformed_counterexample :
    findById sampleLibrary "abc" (storeAfter 1) =
      ⟨500, Body.failure "Error fetching order" "Cast to ObjectId failed"⟩ := by
  decide

/-- C12, amended: a lookup fails with 404 when the identifier is well formed and no
order has it; when the identifier is malformed it fails with 500. -/
theorem findById_failures :
    (∀ (lib : Library) (id : String) (db : Store) (oid : ObjectId),
      lib.castObjectId id = some oid → (∀ o ∈ db.orders, o._id ≠ oid) →
      findById lib id db = ⟨404, Body.message "Order not found"⟩) ∧
    (∀ (lib : Library) (id : String) (db : Store),
      lib.castObjectId id = none → (findById lib id db).status = 500) := by
  constructor
  · intro lib id db oid hc hno
    have hfind : db.orders.find? (fun o => o._id == oid) = none := by
      rw [List.find?_eq_none]
      intro o ho
      simpa using hno o ho
    simp [findById, hc, hfind]
  · intro lib id db hc
    simp [findById, hc]

/-- Witness of C12 (amended): a well-formed identifier that no order of the store
after one creation has, and the malformed identifier `abc`. -/
theorem findById_failures_witness :
    findById sampleLibrary "000000000000000000000001" (storeAfter 1)
      = ⟨404, Body.message "Order not found"⟩ ∧
    (findById sampleLibrary "abc" (storeAfter 1)).status = 500 :=
  ⟨findById_failures.1 sampleLibrary "000000000000000000000001" (storeAfter 1) 1
      (by decide) (by decide),
    findById_failures.2 sampleLibrary "abc" (storeAfter 1) (by decide)⟩


/-- C13: the listing returns every persisted order exactly once, a permutation of
the collection, ordered by creation instant non-increasing: newest first. -/
theorem findAll_newest_first (db : Store) :
    ∃ listed, findAll db = ⟨200, Body.orders listed⟩ ∧ listed.Perm db.orders ∧
      listed.Pairwise (fun a b => a.createdAt ≥ b.createdAt) := by
  refine ⟨_, rfl, List.perm_insertionSort _ _, ?_⟩
  have hs := @List.sorted_insertionSort Order (fun a b => a.createdAt ≥ b.createdAt) _
    ⟨fun a b => Nat.le_total b.createdAt a.createdAt⟩
    ⟨fun a b c hab hbc => Nat.le_trans hbc hab⟩ db.orders
  exact hs

/-- C14, the code at the failing input: a payment update of the order of the store
after one creation is answered with 200 and an order without `isPaid`, `paidAt` and
`paymentResult`, and the store is as before; no payment update changes the store,
and none returns an order with `isPaid` set. -/
theorem markPaid_not_persisted :
    (∃ o, markPaid sampleLibrary 9 "000000000000000000000000"
        { id := some "pay_1", status := some "COMPLETED", update_time := some "t",
          email_address := some "a@b.c" } (storeAfter 1) = (⟨200, Body.order o⟩, storeAfter 1) ∧
      o.isPaid = none ∧ o.paidAt = none ∧ o.paymentResult = none ∧
      (storeAfter 1).orders = [o]) ∧
    ∀ (lib : Library) (now : Nat) (id : String) (body : PaymentPayload) (db : Store),
      (markPaid lib now id body db).2 = db ∧
      ∀ o, (markPaid lib now id body db).1.body = Body.order o → o.isPaid = none := by
  constructor
  · refine ⟨{ _id := 0, orderNumber := "ORD0001",
              customer := { name := "Guest", phone := "0000000000" },
              orderItems := [{ product := ProductRef.text "507f1f77bcf86cd799439011",
                               productModel := "Product", name := "Paneer Tikka", quantity := 2,
                               price := 100, image := none }],
              paymentMethod := "cash", subtotal := 200, cgst := 9, sgst := 9,
              deliveryCharge := 0, totalAmount := 218, status := "pending", createdAt := 0,
              updatedAt := 0, isPaid := none, paidAt := none, paymentResult := none },
      by decide, rfl, rfl, rfl, by decide⟩
  · intro lib now id body db
    refine ⟨markPaid_store lib now id body db, ?_⟩
    intro o
    unfold markPaid
    cases lib.castObjectId id with
    | none => simp
    | some oid =>
      simp only
      cases db.orders.find? (fun o => o._id == oid) with
      | none => simp
      | some found =>
        simp only
        split
        · simp only [jsonOrder, Body.order.injEq]
          intro ho
          rw [← ho]
          rfl
        · simp
        · simp

/-- C15: two payment updates in succession with the same payload leave the store
in the same final state as one, whatever the instants of the two calls. -/
theorem markPaid_idempotent (lib : Library) (now later : Nat) (id : String)
    (body : PaymentPayload) (db : Store) :
    (markPaid lib later id body (markPaid lib now id body db).2).2
      = (markPaid lib now id body db).2 := by
  rw [markPaid_store, markPaid_store]


/-! ## The summary -/

theorem foldl_add_totalAmount (l : List Order) (acc : ℚ) :
    l.foldl (fun sum order => sum + order.totalAmount) acc
      = acc + (l.map (fun o => o.totalAmount)).sum := by
  induction l generalizing acc with
  | nil => simp
  | cons o rest ih => simp [ih, add_assoc]

theorem totalSales_eq_sum (db : Store) :
    totalSales db = ((completedOrders db).map (fun o => o.totalAmount)).sum := by
  simp [totalSales, foldl_add_totalAmount]

theorem sum_filter_eq_sum_ite (l : List Order) (p : Order → Bool) :
    ((l.filter p).map (fun o => o.totalAmount)).sum
      = (l.map (fun o => if p o = true then o.totalAmount else 0)).sum := by
  induction l with
  | nil => rfl
  | cons o rest ih =>
    by_cases hp : p o = true
    · simp [List.filter_cons, hp, ih]
    · simp [List.filter_cons, hp, ih]

/-- C16: for every store, the summary of the reports has `totalSales` equal to the
sum of `totalAmount` over exactly the orders whose status is `delivered` (every
other order counts for 0), and `totalOrders` equal to the number of those
orders. -/
theorem summary_totals (clock : ReportClock) (db : Store) :
    ∃ r, getReports clock db = ⟨200, Body.reports r⟩ ∧
      r.summary.totalSales =
        (db.orders.map (fun o => if o.status = "delivered" then o.totalAmount else 0)).sum ∧
      r.summary.totalSales =
        ((db.orders.filter (fun o => decide (o.status = "delivered"))).map
          (fun o => o.totalAmount)).sum ∧
      r.summary.totalOrders = db.orders.countP (fun o => decide (o.status = "delivered")) := by
  refine ⟨_, rfl, ?_, ?_, ?_⟩
  · show totalSales db = _
    rw [totalSales_eq_sum, completedOrders, sum_filter_eq_sum_ite]
    congr 1
    apply List.map_congr_left
    intro o _
    by_cases ho : o.status = "delivered" <;> simp [ho]
  · show totalSales db = _
    rw [totalSales_eq_sum, completedOrders]
    rfl
  · show (completedOrders db).length = _
    rw [completedOrders, List.countP_eq_length_filter]
    rfl

theorem zeroTotalStore_completed :
    (completedOrders zeroTotalStore).map (fun o => o.totalAmount) = [0] := by
  decide

/-- C17, counterexample: after an order is created with `totalAmount` 0 and set to
`delivered`, there is one delivered order and the average order value is 0. -/
theorem average_zero_counterexample :
    Reachable sampleLibrary zeroTotalStore ∧ (completedOrders zeroTotalStore).length = 1 ∧
    averageOrderValue zeroTotalStore = 0 := by
  refine ⟨⟨_, _, _, rfl⟩, by decide, ?_⟩
  have h : totalSales zeroTotalStore = 0 := by
    rw [totalSales_eq_sum, zeroTotalStore_completed]
    simp
  simp [averageOrderValue, h]

/-- C17, amended: the average order value is 0 if and only if there are zero
delivered orders or their total sales are 0, hence exactly when there are zero
delivered orders as soon as every delivered order has a positive `totalAmount`; with
at least one delivered order it equals `totalSales / totalOrders`, and the divisor
is not zero. -/
theorem averageOrderValue_spec (db : Store) :
    (averageOrderValue db = 0 ↔ (completedOrders db).length = 0 ∨ totalSales db = 0) ∧
    ((∀ o ∈ completedOrders db, 0 < o.totalAmount) →
      (averageOrderValue db = 0 ↔ (completedOrders db).length = 0)) ∧
    (1 ≤ (completedOrders db).length →
      averageOrderValue db = totalSales db / ((completedOrders db).length : ℚ) ∧
      ((completedOrders db).length : ℚ) ≠ 0) := by
  have hiff : averageOrderValue db = 0 ↔
      (completedOrders db).length = 0 ∨ totalSales db = 0 := by
    unfold averageOrderValue
    by_cases hlen : (completedOrders db).length > 0
    · have hne : ((completedOrders db).length : ℚ) ≠ 0 := by
        exact_mod_cast Nat.pos_iff_ne_zero.mp hlen
      simp only [hlen, if_true, div_eq_zero_iff, hne, or_false]
      constructor
      · intro h; exact Or.inr h
      · rintro (h | h)
        · omega
        · exact h
    · simp only [hlen, if_false, true_iff]
      left; omega
  refine ⟨hiff, ?_, ?_⟩
  · intro hpos
    rw [hiff]
    constructor
    · rintro (h | h)
      · exact h
      · rw [totalSales_eq_sum] at h
        by_contra hne
        obtain ⟨o, rest, hl⟩ : ∃ o rest, completedOrders db = o :: rest := by
          cases hc : completedOrders db with
          | nil => simp [hc] at hne
          | cons o rest => exact ⟨o, rest, rfl⟩
        have hnonneg : ∀ l : List Order, (∀ x ∈ l, 0 < x.totalAmount) →
            0 ≤ (l.map (fun x => x.totalAmount)).sum := by
          intro l hl'
          induction l with
          | nil => simp
          | cons x xs ih =>
            simp only [List.map_cons, List.sum_cons]
            have h1 := hl' x (List.mem_cons_self _ _)
            have h2 := ih (fun y hy => hl' y (List.mem_cons_of_mem _ hy))
            linarith
        rw [hl] at h hpos
        simp only [List.map_cons, List.sum_cons] at h
        have h1 := hpos o (List.mem_cons_self _ _)
        have h2 := hnonneg rest (fun y hy => hpos y (List.mem_cons_of_mem _ hy))
        linarith
    · intro h; exact Or.inl h
  · intro hlen
    have hpos : (completedOrders db).length > 0 := hlen
    have hne : ((completedOrders db).length : ℚ) ≠ 0 := by
      exact_mod_cast Nat.pos_iff_ne_zero.mp hpos
    exact ⟨by simp [averageOrderValue, hpos], hne⟩

/-- Witness of C17 (amended): the store after two creations, with its first order
set to `delivered`. -/
theorem averageOrderValue_spec_witness :
    1 ≤ (completedOrders deliveredStore).length ∧
    averageOrderValue deliveredStore
      = totalSales deliveredStore / ((completedOrders deliveredStore).length : ℚ) ∧
    ((completedOrders deliveredStore).length : ℚ) ≠ 0 :=
  ⟨by decide, (averageOrderValue_spec deliveredStore).2.2 (by decide)⟩


/-! ## Grouping and sorting -/

theorem mem_groupBy {α κ : Type} [DecidableEq κ] (key : α → κ) (docs : List α)
    (g : κ × List α) :
    g ∈ groupBy key docs ↔
      g.1 ∈ docs.map key ∧ g.2 = docs.filter (fun d => decide (key d = g.1)) := by
  unfold groupBy
  constructor
  · intro h
    obtain ⟨k, hk, rfl⟩ := List.mem_map.mp h
    exact ⟨List.mem_dedup.mp hk, rfl⟩
  · rintro ⟨h1, h2⟩
    refine List.mem_map.mpr ⟨g.1, List.mem_dedup.mpr h1, ?_⟩
    rw [← h2]

theorem groupBy_keys {α κ : Type} [DecidableEq κ] (key : α → κ) (docs : List α) :
    (groupBy key docs).map Prod.fst = (docs.map key).dedup := by
  unfold groupBy
  rw [List.map_map]
  exact List.map_id _

theorem insertionSort_ge_sorted {α : Type} (f : α → ℚ) (l : List α) :
    (l.insertionSort (fun a b => f a ≥ f b)).Pairwise (fun a b => f a ≥ f b) :=
  @List.sorted_insertionSort α (fun a b => f a ≥ f b) _
    ⟨fun a b => le_total (f b) (f a)⟩ ⟨fun _ _ _ hab hbc => le_trans hbc hab⟩ l

theorem insertionSort_le_sorted {α : Type} (f : α → Nat) (l : List α) :
    (l.insertionSort (fun a b => f a ≤ f b)).Pairwise (fun a b => f a ≤ f b) :=
  @List.sorted_insertionSort α (fun a b => f a ≤ f b) _
    ⟨fun a b => Nat.le_total (f a) (f b)⟩ ⟨fun _ _ _ hab hbc => Nat.le_trans hab hbc⟩ l

theorem mem_insertionSort {α : Type} (r : α → α → Prop) [DecidableRel r] (l : List α) (x : α) :
    x ∈ l.insertionSort r ↔ x ∈ l :=
  (List.perm_insertionSort r l).mem_iff

/-! ## The top selling category -/

theorem mem_categoryRows (db : Store) (r : OrderItem × Product × Category)
    (h : r ∈ categoryRows db) : r.2.2 ∈ db.categories := by
  simp only [categoryRows, List.mem_flatMap, List.mem_map] at h
  obtain ⟨pr, _, c, hc, rfl⟩ := h
  exact (List.mem_filter.mp hc).1

theorem mem_salesByCategory (db : Store) (b : CategoryBucket) (h : b ∈ salesByCategory db) :
    ∃ r ∈ categoryRows db, r.2.2.name = b.category := by
  unfold salesByCategory at h
  rw [mem_insertionSort] at h
  obtain ⟨g, hg, rfl⟩ := List.mem_map.mp h
  obtain ⟨hk, _⟩ := (mem_groupBy _ _ g).mp hg
  obtain ⟨r, hr, hrk⟩ := List.mem_map.mp hk
  exact ⟨r, hr, hrk⟩

theorem legacy_salesByCategory :
    salesByCategory legacyStore = [{ category := "N/A", sales := 10, orders := 1 }] := by
  have hrows : categoryRows legacyStore =
      [({ product := ProductRef.objectId 1, productModel := "Product",
          name := "Chai", quantity := 1, price := 10, image := none },
        { _id := 1, name := "Chai", category := some 2 }, { _id := 2, name := "N/A" })] := by
    decide
  simp [salesByCategory, hrows, groupBy]

/-- C18, counterexample: over a catalog whose category is named N/A, the report of a
store with a delivered order of that category is not empty and the top selling
category is N/A. -/
theorem top_category_counterexample :
    salesByCategory legacyStore ≠ [] ∧ topSellingCategory legacyStore = "N/A" := by
  simp [topSellingCategory, legacy_salesByCategory]

/-- C18, amended: the top selling category is N/A when the sales-by-category report
is empty; otherwise it is the category of the first bucket, which is the name of a
category of the catalog and whose sales are greater than or equal to those of every
other bucket; so it is N/A exactly when the report is empty or its first bucket is
that of a category named N/A. -/
theorem topSellingCategory_spec (db : Store) :
    (salesByCategory db = [] → topSellingCategory db = "N/A") ∧
    (∀ b rest, salesByCategory db = b :: rest →
      topSellingCategory db = b.category ∧ (∃ c ∈ db.categories, c.name = b.category) ∧
      ∀ other ∈ rest, other.sales ≤ b.sales) ∧
    (topSellingCategory db = "N/A" ↔
      salesByCategory db = [] ∨ ∃ b rest, salesByCategory db = b :: rest ∧ b.category = "N/A") := by
  refine ⟨?_, ?_, ?_⟩
  · intro h
    simp [topSellingCategory, h]
  · intro b rest h
    refine ⟨by simp [topSellingCategory, h], ?_, ?_⟩
    · obtain ⟨r, hr, hname⟩ := mem_salesByCategory db b (by rw [h]; exact List.mem_cons_self _ _)
      exact ⟨r.2.2, mem_categoryRows db r hr, hname⟩
    · have hs := insertionSort_ge_sorted (fun x : CategoryBucket => x.sales)
        ((groupBy (fun r => r.2.2.name) (categoryRows db)).map (fun g =>
          ({ category := g.1, sales := (g.2.map (fun r => r.1.quantity * r.1.price)).sum,
             orders := g.2.length } : CategoryBucket)))
      have hs' : (salesByCategory db).Pairwise (fun a b => a.sales ≥ b.sales) := hs
      rw [h] at hs'
      exact fun other ho => (List.pairwise_cons.mp hs').1 other ho
  · cases h : salesByCategory db with
    | nil => simp [topSellingCategory, h]
    | cons b rest => simp [topSellingCategory, h]

/-- Witness of C18 (amended): the store whose report has the single bucket of the
category N/A. -/
theorem topSellingCategory_spec_witness :
    topSellingCategory legacyStore = "N/A" ∧
    (∃ c ∈ legacyStore.categories, c.name = "N/A") ∧
    ∀ other ∈ ([] : List CategoryBucket), other.sales ≤ 10 :=
  (topSellingCategory_spec legacyStore).2.1 { category := "N/A", sales := 10, orders := 1 } []
    legacy_salesByCategory


/-! ## Sales by date -/

theorem mem_matchedByDate (clock : ReportClock) (db : Store) (o : Order) :
    o ∈ matchedByDate clock db ↔
      o ∈ db.orders ∧ o.status = "delivered" ∧ thirtyDaysAgo clock ≤ (o.createdAt : Int) := by
  simp only [matchedByDate, List.mem_filter, Bool.and_eq_true, decide_eq_true_eq,
    beq_iff_eq]
  tauto

theorem matchedByDate_filter_day (clock : ReportClock) (db : Store) (d : Nat) :
    (matchedByDate clock db).filter (fun o => decide (dayOf o.createdAt = d)) =
      db.orders.filter (fun o => decide (o.status = "delivered" ∧
        thirtyDaysAgo clock ≤ (o.createdAt : Int) ∧ o.createdAt / 86400000 = d)) := by
  simp only [matchedByDate, dayOf, List.filter_filter]
  apply List.filter_congr
  intro o _
  by_cases h1 : o.status = "delivered" <;>
    by_cases h2 : thirtyDaysAgo clock ≤ (o.createdAt : Int) <;>
    by_cases h3 : o.createdAt / 86400000 = d <;> simp [h1, h2, h3]

theorem mem_salesByDate (clock : ReportClock) (db : Store) (b : DateBucket) :
    b ∈ salesByDate clock db ↔
      b.date ∈ (matchedByDate clock db).map (fun o => dayOf o.createdAt) ∧
      b.sales = (((matchedByDate clock db).filter
        (fun o => decide (dayOf o.createdAt = b.date))).map (fun o => o.totalAmount)).sum ∧
      b.orders = ((matchedByDate clock db).filter
        (fun o => decide (dayOf o.createdAt = b.date))).length := by
  unfold salesByDate
  rw [mem_insertionSort, List.mem_map]
  constructor
  · rintro ⟨g, hg, rfl⟩
    obtain ⟨hk, hdocs⟩ := (mem_groupBy _ _ g).mp hg
    exact ⟨hk, by simp only [hdocs], by simp only [hdocs]⟩
  · rintro ⟨hk, hs, ho⟩
    refine ⟨(b.date, (matchedByDate clock db).filter
      (fun o => decide (dayOf o.createdAt = b.date))), (mem_groupBy _ _ _).mpr ⟨hk, rfl⟩, ?_⟩
    obtain ⟨d, s, n⟩ := b
    simp only at hs ho
    simp [hs, ho]

theorem salesByDate_dates (clock : ReportClock) (db : Store) :
    ((salesByDate clock db).map (fun b => b.date)).Perm
      ((matchedByDate clock db).map (fun o => dayOf o.createdAt)).dedup := by
  unfold salesByDate
  refine ((List.perm_insertionSort _ _).map _).trans ?_
  rw [List.map_map, ← groupBy_keys]
  exact List.Perm.refl _

theorem boundaryStore_orders :
    boundaryStore.orders.map (fun o => (o.status, o.createdAt, o.totalAmount)) =
      [("delivered", 21600000, 10), ("delivered", 64800000, 5)] := by
  decide

theorem boundary_salesByDate :
    salesByDate boundaryClock boundaryStore = [{ date := 0, sales := 5, orders := 1 }] := by
  have hm : (matchedByDate boundaryClock boundaryStore).map
      (fun o => (o.createdAt, o.totalAmount)) = [(64800000, 5)] := by
    decide
  have hlen : (matchedByDate boundaryClock boundaryStore).length = 1 := by
    simpa using congrArg List.length hm
  obtain ⟨o, ho⟩ := List.length_eq_one.mp hlen
  rw [ho] at hm
  simp only [List.map_cons, List.map_nil, List.cons.injEq, Prod.mk.injEq, and_true] at hm
  simp only [salesByDate, ho]
  simp [groupBy, dayOf, hm.1, hm.2]

/-- C19, counterexample: two delivered orders are created on the same day, at 06:00
with `totalAmount` 10 and at 18:00 with `totalAmount` 5; the report taken 30 days
and 12 hours after the start of that day has for that day the bucket with sales 5
and 1 order, while the delivered orders created that day sum to 15 and are 2. -/
theorem boundary_day_counterexample :
    Reachable sampleLibrary boundaryStore ∧
    salesByDate boundaryClock boundaryStore = [{ date := 0, sales := 5, orders := 1 }] ∧
    ((boundaryStore.orders.filter (fun o => decide (o.status = "delivered" ∧
        o.createdAt / 86400000 = 0))).map (fun o => o.totalAmount)).sum = 15 ∧
    (boundaryStore.orders.filter (fun o => decide (o.status = "delivered" ∧
        o.createdAt / 86400000 = 0))).length = 2 := by
  have hf : (boundaryStore.orders.filter (fun o => decide (o.status = "delivered" ∧
      o.createdAt / 86400000 = 0))).map (fun o => o.totalAmount) = [10, 5] := by
    decide
  refine ⟨⟨_, _, _, rfl⟩, boundary_salesByDate, ?_, ?_⟩
  · rw [hf]
    norm_num
  · simpa using congrArg List.length hf

/-- C19, amended: the sales-by-date report has exactly one bucket for each day on
which a delivered order was created at or after the cut-off instant `thirtyDaysAgo`
(the instant the server computes as 30 days before the report instant in its local
calendar), and no other bucket; the sales of a bucket are the sum of `totalAmount`,
and its orders the number, of the delivered orders created that day at or after the
cut-off instant, so that on the day of the cut-off the orders created before it are
not counted; the buckets come in strictly ascending order of date. -/
theorem salesByDate_spec (clock : ReportClock) (db : Store) :
    thirtyDaysAgo clock = (clock.now : Int) - 30 * 86400000 + clock.offsetChange ∧
    ((salesByDate clock db).map (fun b => b.date)).Pairwise (· < ·) ∧
    (∀ d, d ∈ (salesByDate clock db).map (fun b => b.date) ↔
      ∃ o ∈ db.orders, o.status = "delivered" ∧
        thirtyDaysAgo clock ≤ (o.createdAt : Int) ∧ o.createdAt / 86400000 = d) ∧
    (∀ b ∈ salesByDate clock db,
      b.sales = ((db.orders.filter (fun o => decide (o.status = "delivered" ∧
          thirtyDaysAgo clock ≤ (o.createdAt : Int) ∧
          o.createdAt / 86400000 = b.date))).map (fun o => o.totalAmount)).sum ∧
      b.orders = (db.orders.filter (fun o => decide (o.status = "delivered" ∧
          thirtyDaysAgo clock ≤ (o.createdAt : Int) ∧
          o.createdAt / 86400000 = b.date))).length) := by
  refine ⟨rfl, ?_, ?_, ?_⟩
  · have hsorted : (salesByDate clock db).Pairwise (fun a b => a.date ≤ b.date) :=
      insertionSort_le_sorted (fun b : DateBucket => b.date) _
    have hle : ((salesByDate clock db).map (fun b => b.date)).Pairwise (· ≤ ·) :=
      List.pairwise_map.mpr hsorted
    have hnd : ((salesByDate clock db).map (fun b => b.date)).Nodup :=
      (salesByDate_dates clock db).nodup_iff.mpr (List.nodup_dedup _)
    exact (hle.and hnd).imp (fun h => lt_of_le_of_ne h.1 h.2)
  · intro d
    rw [(salesByDate_dates clock db).mem_iff, List.mem_dedup, List.mem_map]
    constructor
    · rintro ⟨o, ho, hd⟩
      obtain ⟨h1, h2, h3⟩ := (mem_matchedByDate clock db o).mp ho
      exact ⟨o, h1, h2, h3, hd⟩
    · rintro ⟨o, h1, h2, h3, hd⟩
      exact ⟨o, (mem_matchedByDate clock db o).mpr ⟨h1, h2, h3⟩, hd⟩
  · intro b hb
    obtain ⟨_, hs, ho⟩ := (mem_salesByDate clock db b).mp hb
    rw [matchedByDate_filter_day] at hs ho
    exact ⟨hs, ho⟩

/-- Witness of C19 (amended): the bucket of the day of the cut-off, in the report
taken 30 days and 12 hours after the start of the day of two delivered orders. -/
theorem salesByDate_spec_witness :
    ({ date := 0, sales := 5, orders := 1 } : DateBucket) ∈
      salesByDate boundaryClock boundaryStore ∧
    (5 : ℚ) = ((boundaryStore.orders.filter (fun o => decide (o.status = "delivered" ∧
          thirtyDaysAgo boundaryClock ≤ (o.createdAt : Int) ∧
          o.createdAt / 86400000 = 0))).map (fun o => o.totalAmount)).sum ∧
    1 = (boundaryStore.orders.filter (fun o => decide (o.status = "delivered" ∧
          thirtyDaysAgo boundaryClock ≤ (o.createdAt : Int) ∧
          o.createdAt / 86400000 = 0))).length :=
  ⟨by rw [boundary_salesByDate]; exact List.mem_singleton.mpr rfl,
    (salesByDate_spec boundaryClock boundaryStore).2.2.2 { date := 0, sales := 5, orders := 1 }
      (by rw [boundary_salesByDate]; exact List.mem_singleton.mpr rfl)⟩

/-! ## Sales by category -/

theorem updateStatus_store_cases (lib : Library) (now : Nat) (id status : String) (db : Store) :
    (updateStatus lib now id status db).2 = db ∨
    ∃ pre found post, db.orders = pre ++ found :: post ∧
      (updateStatus lib now id status db).2 =
        { db with orders := pre ++ { found with status := status, updatedAt := now } :: post } := by
  unfold updateStatus
  cases lib.castObjectId id with
  | none => exact Or.inl rfl
  | some oid =>
    simp only
    cases hfind : db.orders.find? (fun o => o._id == oid) with
    | none => exact Or.inl rfl
    | some found =>
      simp only
      obtain ⟨pre, post, hl, _, _, hup⟩ := find_split oid db.orders found hfind
      have hup' := hup (fun _ => { found with status := status, updatedAt := now })
      refine Or.inr ⟨pre, found, post, hl, ?_⟩
      split <;> simp [hup']

theorem handle_textRefs (lib : Library) (r : Request) (db : Store) (h : TextRefs db) :
    TextRefs (handle lib r db).2 := by
  cases r with
  | create env body =>
    simp only [handle]
    rcases createOrder_cases lib env body db with
      ⟨errs, _, he, _⟩ | ⟨items, _, _, _, _, _, ⟨msg, he, _⟩ | ⟨o, hb, _, he⟩⟩
    · rw [he]; exact h
    · rw [he]; exact h
    · rw [he]
      intro x hx it hit
      rcases List.mem_append.mp hx with hx | hx
      · exact h x hx it hit
      · rw [List.mem_singleton] at hx
        subst hx
        have hc := (buildOrder_fields _ _ _ hb).2.2.2.2.2.2.1
        exact (castItems_processed_tag lib items _ hc it hit).1
  | status now id status =>
    simp only [handle]
    rcases updateStatus_store_cases lib now id status db with he | ⟨pre, found, post, hl, he⟩
    · rw [he]; exact h
    · rw [he]
      intro x hx it hit
      simp only [List.mem_append, List.mem_cons] at hx
      rcases hx with hx | rfl | hx
      · exact h x (by rw [hl]; simp [hx]) it hit
      · exact h found (by rw [hl]; simp) it hit
      · exact h x (by rw [hl]; simp [hx]) it hit
  | pay now id body =>
    simp only [handle]
    rw [markPaid_store]
    exact h

theorem run_textRefs (lib : Library) (rs : List Request) : ∀ db, TextRefs db →
    TextRefs (run lib rs db) := by
  induction rs with
  | nil => intro db h; exact h
  | cons r rs ih =>
    intro db h
    exact ih _ (handle_textRefs lib r db h)

theorem productRows_of_textRefs (db : Store) (h : TextRefs db) : productRows db = [] := by
  unfold productRows
  rw [List.flatMap_eq_nil_iff]
  intro it hit
  simp only [deliveredItems, List.mem_flatMap] at hit
  obtain ⟨o, ho, hio⟩ := hit
  obtain ⟨s, hs⟩ := h o (List.mem_filter.mp ho).1 it hio
  simp [lookupProducts, hs]

theorem salesByCategory_of_textRefs (db : Store) (h : TextRefs db) : salesByCategory db = [] := by
  simp [salesByCategory, categoryRows, productRows_of_textRefs db h, groupBy]

theorem deliveredStore_reference :
    referenceSalesByCategory sampleLibrary deliveredStore
      = [{ category := "Starters", sales := 200, orders := 1 }] := by
  have hrows : referenceCategoryRows sampleLibrary deliveredStore =
      [({ product := ProductRef.text "507f1f77bcf86cd799439011", productModel := "Product",
          name := "Paneer Tikka", quantity := 2, price := 100, image := none }, "Starters")] := by
    decide
  simp only [referenceSalesByCategory, hrows]
  simp [groupBy]
  norm_num

/-- C20, the code at the failing input: after two orders are created over the
scenario catalog with the completed scenario payload and the first is set to
`delivered`, the sales-by-category report is empty, while the reference aggregation
has the bucket of the category of the ordered product; the report is empty in every
store reached from an empty collection by requests to the order routes. -/
theorem salesByCategory_misses_created :
    (salesByCategory deliveredStore = [] ∧
      referenceSalesByCategory sampleLibrary deliveredStore
        = [{ category := "Starters", sales := 200, orders := 1 }]) ∧
    ∀ (lib : Library) (rs : List Request) (products : List Product)
      (categories : List Category),
      salesByCategory (run lib rs (emptyStore products categories)) = [] := by
  have hgen : ∀ (lib : Library) (rs : List Request) (products : List Product)
      (categories : List Category),
      salesByCategory (run lib rs (emptyStore products categories)) = [] := by
    intro lib rs products categories
    apply salesByCategory_of_textRefs
    apply run_textRefs
    intro o ho
    simp [emptyStore] at ho
  exact ⟨⟨hgen sampleLibrary _ _ _, deliveredStore_reference⟩, hgen⟩


/-! ## Sales by product -/

theorem salesByProduct_of_textRefs (db : Store) (h : TextRefs db) : salesByProduct db = [] := by
  simp [salesByProduct, productRows_of_textRefs db h, groupBy]

theorem deliveredStore_reference_products :
    referenceSalesByProduct sampleLibrary deliveredStore
      = [{ name := "Paneer Tikka", sales := 200, quantity := 2 }] := by
  have hrows : referenceProductRows sampleLibrary deliveredStore =
      [({ product := ProductRef.text "507f1f77bcf86cd799439011", productModel := "Product",
          name := "Paneer Tikka", quantity := 2, price := 100, image := none },
        "Paneer Tikka")] := by
    decide
  simp only [referenceSalesByProduct, hrows]
  simp [groupBy]
  norm_num

/-- C21, the code at the failing input: after two orders are created over the
scenario catalog with the completed scenario payload and the first is set to
`delivered`, the sales-by-product report is empty, while the reference aggregation
has the bucket of the ordered product; the report is empty in every store reached
from an empty collection by requests to the order routes. -/
theorem salesByProduct_misses_created :
    (salesByProduct deliveredStore = [] ∧
      referenceSalesByProduct sampleLibrary deliveredStore
        = [{ name := "Paneer Tikka", sales := 200, quantity := 2 }]) ∧
    ∀ (lib : Library) (rs : List Request) (products : List Product)
      (categories : List Category),
      salesByProduct (run lib rs (emptyStore products categories)) = [] := by
  have hgen : ∀ (lib : Library) (rs : List Request) (products : List Product)
      (categories : List Category),
      salesByProduct (run lib rs (emptyStore products categories)) = [] := by
    intro lib rs products categories
    apply salesByProduct_of_textRefs
    apply run_textRefs
    intro o ho
    simp [emptyStore] at ho
  exact ⟨⟨hgen sampleLibrary _ _ _, deliveredStore_reference_products⟩, hgen⟩


/-! ## Sums over groups -/

theorem sum_ite_key {κ M : Type} [DecidableEq κ] [AddCommMonoid M] (ks : List κ)
    (hnd : ks.Nodup) (k0 : κ) (h : k0 ∈ ks) (v : M) :
    (ks.map (fun k => if k0 = k then v else 0)).sum = v := by
  induction ks with
  | nil => simp at h
  | cons k rest ih =>
    have hnd' := List.nodup_cons.mp hnd
    by_cases hk : k0 = k
    · subst hk
      have hzero : (rest.map (fun k => if k0 = k then v else 0)).sum = 0 := by
        apply List.sum_eq_zero
        intro x hx
        obtain ⟨k, hk, rfl⟩ := List.mem_map.mp hx
        have : k0 ≠ k := fun e => hnd'.1 (e ▸ hk)
        simp [this]
      simp [hzero]
    · have hmem : k0 ∈ rest := by
        rcases List.mem_cons.mp h with e | e
        · exact absurd e hk
        · exact e
      simp [hk, ih hnd'.2 hmem]

theorem sum_groups {α κ M : Type} [DecidableEq κ] [AddCommMonoid M] (key : α → κ) (f : α → M)
    (ks : List κ) (hnd : ks.Nodup) :
    ∀ docs : List α, (∀ d ∈ docs, key d ∈ ks) →
      (ks.map (fun k => ((docs.filter (fun d => decide (key d = k))).map f).sum)).sum
        = (docs.map f).sum := by
  intro docs
  induction docs with
  | nil => intro _; simp
  | cons d rest ih =>
    intro hk
    have hrest := ih (fun x hx => hk x (List.mem_cons_of_mem _ hx))
    have hsplit : ∀ k, (((d :: rest).filter (fun x => decide (key x = k))).map f).sum
        = (if key d = k then f d else 0)
          + ((rest.filter (fun x => decide (key x = k))).map f).sum := by
      intro k
      by_cases hkd : key d = k <;> simp [List.filter_cons, hkd]
    simp only [hsplit, List.sum_map_add, hrest, List.map_cons, List.sum_cons]
    rw [sum_ite_key ks hnd (key d) (hk d (List.mem_cons_self _ _)) (f d)]

theorem groupBy_sum {α κ M : Type} [DecidableEq κ] [AddCommMonoid M] (key : α → κ)
    (f : α → M) (docs : List α) :
    ((groupBy key docs).map (fun g => (g.2.map f).sum)).sum = (docs.map f).sum := by
  have h := sum_groups key f (docs.map key).dedup (List.nodup_dedup _) docs
    (fun d hd => List.mem_dedup.mpr (List.mem_map.mpr ⟨d, hd, rfl⟩))
  rw [← h]
  simp [groupBy, List.map_map, Function.comp_def]

theorem salesByCategory_total (db : Store) :
    ((salesByCategory db).map (fun b => b.sales)).sum
      = ((categoryRows db).map (fun r => r.1.quantity * r.1.price)).sum := by
  unfold salesByCategory
  rw [((List.perm_insertionSort _ _).map _).sum_eq, List.map_map]
  exact groupBy_sum (fun r => r.2.2.name) (fun r => r.1.quantity * r.1.price) (categoryRows db)

theorem salesByProduct_total (db : Store) :
    ((salesByProduct db).map (fun b => b.sales)).sum
      = ((productRows db).map (fun r => r.1.quantity * r.1.price)).sum := by
  unfold salesByProduct
  rw [((List.perm_insertionSort _ _).map _).sum_eq, List.map_map]
  exact groupBy_sum (fun r => r.2.name) (fun r => r.1.quantity * r.1.price) (productRows db)


theorem adHocStore_items :
    deliveredItems adHocStore =
      [{ product := ProductRef.text "temp-1", productModel := "TempProduct",
         name := "Special Thali", quantity := 2, price := 100, image := none }] := by
  decide

theorem adHocStore_textRefs : TextRefs adHocStore := by
  apply run_textRefs
  intro o ho
  simp [scenarioCatalog, emptyStore] at ho

/-- C22, counterexample: after an order for an ad-hoc product, quantity 2 at price
100, is created and set to `delivered`, the line items of the delivered orders sum
to 200 while both reports are empty and their sales sum to 0. -/
theorem bucket_sales_counterexample :
    ((deliveredItems adHocStore).map (fun it => it.quantity * it.price)).sum = 200 ∧
    ((salesByCategory adHocStore).map (fun b => b.sales)).sum = 0 ∧
    ((salesByProduct adHocStore).map (fun b => b.sales)).sum = 0 := by
  refine ⟨?_, ?_, ?_⟩
  · rw [adHocStore_items]
    norm_num
  · rw [salesByCategory_of_textRefs adHocStore adHocStore_textRefs]
    rfl
  · rw [salesByProduct_of_textRefs adHocStore adHocStore_textRefs]
    rfl

/-- C22, amended: for every store, the sum of sales over all sales-by-category
buckets equals the sum of quantity times price over the line items of delivered
orders that the joins of the report keep, one term for each row of a line item with
the product and the category it joins, and the sum over all sales-by-product buckets
equals that sum over the rows of a line item with the product it joins; line items
that join nothing count in neither. -/
theorem bucket_sales_total (db : Store) :
    ((salesByCategory db).map (fun b => b.sales)).sum
      = ((categoryRows db).map (fun r => r.1.quantity * r.1.price)).sum ∧
    ((salesByProduct db).map (fun b => b.sales)).sum
      = ((productRows db).map (fun r => r.1.quantity * r.1.price)).sum ∧
    (∀ r ∈ productRows db, r.1 ∈ deliveredItems db ∧ r.2 ∈ db.products ∧
      r.1.product = ProductRef.objectId r.2._id) ∧
    (∀ r ∈ categoryRows db, (r.1, r.2.1) ∈ productRows db ∧ r.2.2 ∈ db.categories ∧
      r.2.1.category = some r.2.2._id) := by
  refine ⟨salesByCategory_total db, salesByProduct_total db, ?_, ?_⟩
  · intro r hr
    simp only [productRows, List.mem_flatMap, List.mem_map] at hr
    obtain ⟨it, hit, p, hp, rfl⟩ := hr
    have hp' := List.mem_filter.mp hp
    exact ⟨hit, hp'.1, by simpa using hp'.2⟩
  · intro r hr
    simp only [categoryRows, List.mem_flatMap, List.mem_map] at hr
    obtain ⟨pr, hpr, c, hc, rfl⟩ := hr
    have hc' := List.mem_filter.mp hc
    exact ⟨hpr, hc'.1, by simpa using hc'.2⟩

theorem legacy_productRows : productRows legacyStore =
    [({ product := ProductRef.objectId 1, productModel := "Product",
        name := "Chai", quantity := 1, price := 10, image := none },
      { _id := 1, name := "Chai", category := some 2 })] := by
  decide

/-- Witness of C22 (amended): the row of the store whose delivered line item holds
the identifier of a catalog product. -/
theorem bucket_sales_total_witness :
    (({ product := ProductRef.objectId 1, productModel := "Product", name := "Chai",
        quantity := 1, price := 10, image := none } : OrderItem) ∈ deliveredItems legacyStore) ∧
    (({ _id := 1, name := "Chai", category := some 2 } : Product) ∈ legacyStore.products) ∧
    ProductRef.objectId 1 = ProductRef.objectId 1 :=
  (bucket_sales_total legacyStore).2.2.1
    ({ product := ProductRef.objectId 1, productModel := "Product", name := "Chai",
       quantity := 1, price := 10, image := none },
     { _id := 1, name := "Chai", category := some 2 })
    (by rw [legacy_productRows]; exact List.mem_singleton.mpr rfl)


/-! ## Order status counts -/

theorem mem_orderStatusCounts (db : Store) (b : StatusBucket) :
    b ∈ orderStatusCounts db ↔
      b.status ∈ db.orders.map (fun o => o.status) ∧
      b.count = (db.orders.filter (fun o => decide (o.status = b.status))).length ∧
      b.totalSales = ((db.orders.filter (fun o => decide (o.status = b.status))).map
        (fun o => o.totalAmount)).sum := by
  unfold orderStatusCounts
  rw [List.mem_map]
  constructor
  · rintro ⟨g, hg, rfl⟩
    obtain ⟨hk, hdocs⟩ := (mem_groupBy _ _ g).mp hg
    exact ⟨hk, by simp only [hdocs], by simp only [hdocs]⟩
  · rintro ⟨hk, hc, hs⟩
    refine ⟨(b.status, db.orders.filter (fun o => decide (o.status = b.status))),
      (mem_groupBy _ _ _).mpr ⟨hk, rfl⟩, ?_⟩
    obtain ⟨st, c, t⟩ := b
    simp only at hc hs
    simp [hc, hs]

theorem orderStatusCounts_statuses (db : Store) :
    (orderStatusCounts db).map (fun b => b.status)
      = (db.orders.map (fun o => o.status)).dedup := by
  unfold orderStatusCounts
  rw [List.map_map, ← groupBy_keys]
  rfl

theorem status_has_bucket (db : Store) (o : Order) (ho : o ∈ db.orders) :
    ∃ b ∈ orderStatusCounts db, b.status = o.status := by
  have hmem : o.status ∈ (orderStatusCounts db).map (fun b => b.status) := by
    rw [orderStatusCounts_statuses]
    exact List.mem_dedup.mpr (List.mem_map.mpr ⟨o, ho, rfl⟩)
  obtain ⟨b, hb, hbs⟩ := List.mem_map.mp hmem
  exact ⟨b, hb, hbs⟩

/-- C23: the buckets of the order status counts partition the persisted orders: a
status value occurs in at most one bucket, every order has the bucket of its own
status, the count of a bucket is the number of the orders with its status and its
`totalSales` the sum of their `totalAmount`, and the counts of all buckets add up to
the number of orders. -/
theorem orderStatusCounts_partition (db : Store) :
    ((orderStatusCounts db).map (fun b => b.status)).Nodup ∧
    (∀ o ∈ db.orders, ∃ b ∈ orderStatusCounts db, b.status = o.status) ∧
    (∀ b ∈ orderStatusCounts db,
      (∃ o ∈ db.orders, o.status = b.status) ∧
      b.count = (db.orders.filter (fun o => decide (o.status = b.status))).length ∧
      b.totalSales = ((db.orders.filter (fun o => decide (o.status = b.status))).map
        (fun o => o.totalAmount)).sum) ∧
    ((orderStatusCounts db).map (fun b => b.count)).sum = db.orders.length := by
  refine ⟨?_, ?_, ?_, ?_⟩
  · rw [orderStatusCounts_statuses]
    exact List.nodup_dedup _
  · intro o ho
    exact status_has_bucket db o ho
  · intro b hb
    obtain ⟨hk, hc, hs⟩ := (mem_orderStatusCounts db b).mp hb
    obtain ⟨o, ho, hos⟩ := List.mem_map.mp hk
    exact ⟨⟨o, ho, hos⟩, hc, hs⟩
  · unfold orderStatusCounts
    rw [List.map_map]
    have h := groupBy_sum (fun o : Order => o.status) (fun _ => (1 : Nat)) db.orders
    simpa [Function.comp_def] using h

/-- Witness of C23: the store after two creations with its first order set to
`delivered` has the bucket of `pending` for its second order. -/
theorem orderStatusCounts_partition_witness :
    ∃ o ∈ deliveredStore.orders, o.status = "pending" ∧
      ∃ b ∈ orderStatusCounts deliveredStore, b.status = o.status ∧ b.count = 1 ∧
        b.totalSales = 218 := by
  obtain ⟨o, ho, hst⟩ : ∃ o ∈ deliveredStore.orders, o.status = "pending" := by
    decide
  obtain ⟨b, hb, hbs⟩ := (orderStatusCounts_partition deliveredStore).2.1 o ho
  obtain ⟨_, hc, hs⟩ := (orderStatusCounts_partition deliveredStore).2.2.1 b hb
  refine ⟨o, ho, hst, b, hb, hbs, ?_, ?_⟩
  · rw [hc, hbs, hst]
    decide
  · rw [hs, hbs, hst]
    have : (deliveredStore.orders.filter (fun o => decide (o.status = "pending"))).map
        (fun o => o.totalAmount) = [218] := by decide
    rw [this]
    norm_num

/-- C27: within one report, the number and the sales of the delivered orders of the
summary are the count and the `totalSales` of the `delivered` bucket of the order
status counts, and both are 0 when the order status counts have no such bucket. -/
theorem summary_agrees_with_counts (clock : ReportClock) (db : Store) :
    ∃ r, getReports clock db = ⟨200, Body.reports r⟩ ∧
      (∀ b ∈ r.orderStatusCounts, b.status = "delivered" →
        r.summary.totalOrders = b.count ∧ r.summary.totalSales = b.totalSales) ∧
      ((∀ b ∈ r.orderStatusCounts, b.status ≠ "delivered") →
        r.summary.totalOrders = 0 ∧ r.summary.totalSales = 0) := by
  have hco : completedOrders db = db.orders.filter (fun o => decide (o.status = "delivered")) :=
    rfl
  refine ⟨_, rfl, ?_, ?_⟩
  · intro b hb hst
    obtain ⟨_, hc, hs⟩ := (mem_orderStatusCounts db b).mp hb
    rw [hst] at hc hs
    refine ⟨?_, ?_⟩
    · show (completedOrders db).length = b.count
      rw [hc, hco]
    · show totalSales db = b.totalSales
      rw [hs, totalSales_eq_sum, hco]
  · intro hno
    have hnil : completedOrders db = [] := by
      rw [hco, List.filter_eq_nil_iff]
      intro o ho hdel
      have hdel' : o.status = "delivered" := by simpa using hdel
      obtain ⟨b, hb, hbs⟩ := (status_has_bucket db o ho)
      exact hno b hb (hbs.trans hdel')
    refine ⟨?_, ?_⟩
    · show (completedOrders db).length = 0
      rw [hnil]; rfl
    · show totalSales db = 0
      rw [totalSales_eq_sum, hnil]; rfl


/-- Witness of C27: the report of the store after two creations with the first order
set to `delivered`. -/
theorem summary_agrees_with_counts_witness :
    ∃ r, getReports { now := 0, offsetChange := 0 } deliveredStore = ⟨200, Body.reports r⟩ ∧
      ∃ b ∈ r.orderStatusCounts, b.status = "delivered" ∧
        r.summary.totalOrders = b.count ∧ r.summary.totalSales = b.totalSales := by
  obtain ⟨r, hr, h1, _⟩ :=
    summary_agrees_with_counts { now := 0, offsetChange := 0 } deliveredStore
  have hc : r.orderStatusCounts = orderStatusCounts deliveredStore := by
    simp only [getReports, Response.mk.injEq, Body.reports.injEq, true_and] at hr
    rw [← hr]
  obtain ⟨o, ho, hst⟩ : ∃ o ∈ deliveredStore.orders, o.status = "delivered" := by
    decide
  obtain ⟨b, hb, hbs⟩ := status_has_bucket deliveredStore o ho
  rw [← hc] at hb
  exact ⟨r, hr, b, hb, hbs.trans hst, h1 b hb (hbs.trans hst)⟩

/-! ## Orders that are not delivered -/

theorem matchedByDate_eq (clock : ReportClock) (db : Store) :
    matchedByDate clock db =
      (completedOrders db).filter
        (fun o => decide (thirtyDaysAgo clock ≤ (o.createdAt : Int))) := by
  simp only [matchedByDate, completedOrders, List.filter_filter]

/-- C24: two stores with the same catalog and the same delivered orders, whatever
their other orders, have the same summary, sales by date, sales by category and
sales by product at the same report instant. -/
theorem reports_ignore_undelivered (clock : ReportClock) (db1 db2 : Store)
    (hp : db1.products = db2.products) (hc : db1.categories = db2.categories)
    (hd : db1.orders.filter (fun o => decide (o.status = "delivered"))
      = db2.orders.filter (fun o => decide (o.status = "delivered"))) :
    ∃ r1 r2, getReports clock db1 = ⟨200, Body.reports r1⟩ ∧
      getReports clock db2 = ⟨200, Body.reports r2⟩ ∧
      r1.summary = r2.summary ∧ r1.salesByDate = r2.salesByDate ∧
      r1.salesByCategory = r2.salesByCategory ∧ r1.salesByProduct = r2.salesByProduct := by
  have hco : completedOrders db1 = completedOrders db2 := hd
  have hts : totalSales db1 = totalSales db2 := by simp only [totalSales, hco]
  have hav : averageOrderValue db1 = averageOrderValue db2 := by
    simp only [averageOrderValue, hco, hts]
  have hdate : salesByDate clock db1 = salesByDate clock db2 := by
    simp only [salesByDate, matchedByDate_eq, hco]
  have hitems : deliveredItems db1 = deliveredItems db2 := by simp only [deliveredItems, hco]
  have hlp : lookupProducts db1 = lookupProducts db2 := by
    funext it; simp only [lookupProducts, hp]
  have hlc : lookupCategories db1 = lookupCategories db2 := by
    funext p; simp only [lookupCategories, hc]
  have hpr : productRows db1 = productRows db2 := by simp only [productRows, hitems, hlp]
  have hcr : categoryRows db1 = categoryRows db2 := by simp only [categoryRows, hpr, hlc]
  have hsc : salesByCategory db1 = salesByCategory db2 := by simp only [salesByCategory, hcr]
  have hsp : salesByProduct db1 = salesByProduct db2 := by simp only [salesByProduct, hpr]
  have htop : topSellingCategory db1 = topSellingCategory db2 := by
    simp only [topSellingCategory, hsc]
  refine ⟨_, _, rfl, rfl, ?_, hdate, hsc, hsp⟩
  simp only [hts, hco, hav, htop]

/-- Witness of C24: the store with a delivered and a pending order, and the store
with the delivered order alone. -/
theorem reports_ignore_undelivered_witness :
    deliveredStore.orders.length = 2 ∧ singleDeliveredStore.orders.length = 1 ∧
    ∃ r1 r2, getReports { now := 5, offsetChange := 0 } deliveredStore
        = ⟨200, Body.reports r1⟩ ∧
      getReports { now := 5, offsetChange := 0 } singleDeliveredStore
        = ⟨200, Body.reports r2⟩ ∧
      r1.summary = r2.summary ∧ r1.salesByDate = r2.salesByDate ∧
      r1.salesByCategory = r2.salesByCategory ∧ r1.salesByProduct = r2.salesByProduct :=
  ⟨by decide, by decide,
    reports_ignore_undelivered { now := 5, offsetChange := 0 } deliveredStore singleDeliveredStore (by decide) (by decide)
      (by decide)⟩


/-! ## Duplicate keys and the payment method -/

/-- C25, counterexample: when the only stored order carries the number ORD0002 that
the next creation generates, the accepted scenario payload is answered with 500,
not 400, and nothing is stored. -/
theorem duplicate_key_counterexample :
    createOrder sampleLibrary (envAt 5) completedScenarioPayload collidingStore =
      (⟨500, Body.failure "Error creating order" "E11000 duplicate key error"⟩,
       collidingStore) := by
  decide

/-- C25, amended: when a creation payload passes the checks and validators and the
number generated for it is that of an existing order, so that persisting it fails
on the unique index, order creation responds with status 500 and the body
`{message: 'Error creating order', error}`, and the store is as before. -/
theorem duplicate_key_response (lib : Library) (env : CreateEnv) (body : OrderPayload)
    (db : Store) (items : List ItemPayload)
    (hitems : body.orderItems = some items) (hne : items ≠ [])
    (hcgst : falsy body.cgst = false) (hsgst : falsy body.sgst = false)
    (hvalid : validateDraft (creationDraft lib body items db.orders.length) = [])
    (hdup : ∃ x ∈ db.orders, x.orderNumber = orderNumberOf db.orders.length) :
    (createOrder lib env body db).1.status = 500 ∧
    (∃ msg, (createOrder lib env body db).1.body = Body.failure "Error creating order" msg) ∧
    (createOrder lib env body db).2 = db := by
  rcases createOrder_cases lib env body db with
    ⟨errs, hnil, _, hr⟩ | ⟨items', hi', _, _, _, _, ⟨msg, he, _⟩ | ⟨o, hb, hfresh, _⟩⟩
  · exfalso
    rcases hr with hr | hr | hr | hr | ⟨items', hi', he⟩
    · rw [hitems] at hr; simp at hr
    · rw [hitems] at hr; simp only [Option.some.injEq] at hr; exact hne hr
    · rw [hcgst] at hr; simp at hr
    · rw [hsgst] at hr; simp at hr
    · rw [hitems] at hi'
      simp only [Option.some.injEq] at hi'
      subst hi'
      exact hnil (he.trans hvalid)
  · rw [he]
    exact ⟨rfl, ⟨msg, rfl⟩, rfl⟩
  · exfalso
    obtain ⟨x, hx, hxe⟩ := hdup
    apply hfresh x hx
    rw [hxe, (buildOrder_fields _ _ _ hb).1]
    rfl

/-- Witness of C25 (amended): the accepted scenario payload on the store whose only
order carries the number ORD0002. -/
theorem duplicate_key_response_witness :
    (createOrder sampleLibrary (envAt 5) completedScenarioPayload collidingStore).1.status = 500 ∧
    (∃ msg, (createOrder sampleLibrary (envAt 5) completedScenarioPayload collidingStore).1.body
      = Body.failure "Error creating order" msg) ∧
    (createOrder sampleLibrary (envAt 5) completedScenarioPayload collidingStore).2
      = collidingStore :=
  duplicate_key_response sampleLibrary (envAt 5) completedScenarioPayload collidingStore
    [{ scenarioItem with name := some "Paneer Tikka" }] rfl (by simp) (by decide) (by decide)
    (completed_validates sampleLibrary _ _ rfl) ⟨_, List.mem_singleton.mpr rfl, by decide⟩

/-- C26, counterexample: the completed scenario payload, which has no payment
method, is accepted, and the stored order carries the method `cash`. -/
theorem payment_method_counterexample :
    completedScenarioPayload.paymentMethod = none ∧
    ∃ o db', createOrder sampleLibrary (envAt 0) completedScenarioPayload (emptyStore [] [])
        = (⟨201, Body.order o⟩, db') ∧ o.paymentMethod = "cash" := by
  refine ⟨rfl, ?_⟩
  obtain ⟨o, ho⟩ := createOrder_completed sampleLibrary (envAt 0) (emptyStore [] []) rfl
  refine ⟨o, _, ho, ?_⟩
  rcases createOrder_cases sampleLibrary (envAt 0) completedScenarioPayload (emptyStore [] [])
    with ⟨errs, _, he, _⟩ | ⟨items, _, _, _, _, _, ⟨msg, he, _⟩ | ⟨o', hb, _, he⟩⟩
  · rw [he] at ho; simp at ho
  · rw [he] at ho; simp at ho
  · rw [he] at ho
    simp only [Prod.mk.injEq, Response.mk.injEq, Body.order.injEq, true_and] at ho
    rw [← ho.1, (buildOrder_fields _ _ _ hb).2.2.2.2.2.2.2]
    rfl

/-- C26, amended: order creation is rejected with a validation error (400) when the
payload carries a payment method that is not cash, card or upi; a payload without
payment method is given the method `cash`; so every order persisted by order
creation carries a payment method of that set, the one the client supplied or
`cash`. -/
theorem payment_method_spec :
    (∀ (lib : Library) (env : CreateEnv) (body : OrderPayload) (db : Store) (m : String),
      body.paymentMethod = some m → m ∉ ["cash", "card", "upi"] →
      (createOrder lib env body db).1.status = 400) ∧
    (∀ (lib : Library) (env : CreateEnv) (body : OrderPayload) (db : Store) (o : Order)
      (db' : Store), createOrder lib env body db = (⟨201, Body.order o⟩, db') →
      o.paymentMethod ∈ ["cash", "card", "upi"] ∧
      o.paymentMethod = body.paymentMethod.getD "cash") := by
  have hpm : ∀ (lib : Library) (body : OrderPayload) (items : List ItemPayload) (n : Nat),
      validateDraft (creationDraft lib body items n) = [] →
      paymentMethodOf body.paymentMethod ∈ ["cash", "card", "upi"] := by
    intro lib body items n hv
    simp only [validateDraft, creationDraft, List.append_eq_nil] at hv
    have h := hv.1.1.1.1.1.1.2
    by_contra hnot
    by_cases hr : requiredString (some (paymentMethodOf body.paymentMethod)) = true
    · simp [hr, hnot] at h
    · simp [hr] at h
  constructor
  · intro lib env body db m hm hnot
    rcases createOrder_cases lib env body db with
      ⟨errs, _, he, _⟩ | ⟨items, _, _, _, _, hv, _⟩
    · rw [he]
    · exfalso
      have := hpm lib body items _ hv
      rw [hm] at this
      exact hnot this
  · intro lib env body db o db' h
    rcases createOrder_cases lib env body db with
      ⟨errs, _, he, _⟩ | ⟨items, _, _, _, _, hv, ⟨msg, he, _⟩ | ⟨o', hb, _, he⟩⟩
    · rw [he] at h; simp at h
    · rw [he] at h; simp at h
    · rw [he] at h
      simp only [Prod.mk.injEq, Response.mk.injEq, Body.order.injEq, true_and] at h
      have hpay := (buildOrder_fields _ _ _ hb).2.2.2.2.2.2.2
      simp only [creationDraft] at hpay
      rw [← h.1, hpay]
      exact ⟨hpm lib body items _ hv, rfl⟩

/-- Witness of C26 (amended): the completed scenario payload with the payment method
`cheque` is rejected. -/
theorem payment_method_spec_witness :
    (createOrder sampleLibrary (envAt 0)
      { completedScenarioPayload with paymentMethod := some "cheque" }
      (emptyStore [] [])).1.status = 400 :=
  payment_method_spec.1 sampleLibrary (envAt 0)
    { completedScenarioPayload with paymentMethod := some "cheque" } (emptyStore [] [])
    "cheque" rfl (by decide)


/-! ## The reports only drop line items -/

theorem filter_unique_length {α : Type} (l : List α) (f : α → Nat) (hnd : (l.map f).Nodup)
    (P : α → Bool) (hP : ∀ a b, P a = true → P b = true → f a = f b) :
    (l.filter P).length ≤ 1 := by
  induction l with
  | nil => simp
  | cons a rest ih =>
    simp only [List.map_cons, List.nodup_cons] at hnd
    by_cases ha : P a = true
    · have hrest : rest.filter P = [] := by
        rw [List.filter_eq_nil_iff]
        intro b hb hPb
        exact hnd.1 (List.mem_map.mpr ⟨b, hb, (hP a b ha hPb).symm⟩)
      simp [List.filter_cons, ha, hrest]
    · simp only [List.filter_cons, ha]
      exact ih hnd.2

theorem sum_flatMap_le {α β : Type} (l : List α) (F : α → List β) (v : β → ℚ) (w : α → ℚ)
    (h : ∀ a ∈ l, ((F a).map v).sum ≤ w a) :
    ((l.flatMap F).map v).sum ≤ (l.map w).sum := by
  induction l with
  | nil => simp
  | cons a rest ih =>
    simp only [List.flatMap_cons, List.map_append, List.sum_append, List.map_cons, List.sum_cons]
    exact add_le_add (h a (List.mem_cons_self _ _))
      (ih (fun x hx => h x (List.mem_cons_of_mem _ hx)))

theorem sum_const_le_of_length_le_one {β : Type} (l : List β) (c : ℚ) (hc : 0 ≤ c)
    (hl : l.length ≤ 1) : (l.map (fun _ => c)).sum ≤ c := by
  match l, hl with
  | [], _ => simpa using hc
  | [_], _ => simp
  | _ :: _ :: _, hl => simp at hl

theorem lookupProducts_length (db : Store) (it : OrderItem)
    (hp : (db.products.map (fun p => p._id)).Nodup) : (lookupProducts db it).length ≤ 1 := by
  apply filter_unique_length db.products (fun p => p._id) hp
  intro a b ha hb
  have ha' : it.product = ProductRef.objectId a._id := by simpa using ha
  have hb' : it.product = ProductRef.objectId b._id := by simpa using hb
  rw [ha'] at hb'
  exact ProductRef.objectId.inj hb'

theorem lookupCategories_length (db : Store) (p : Product)
    (hc : (db.categories.map (fun c => c._id)).Nodup) : (lookupCategories db p).length ≤ 1 := by
  apply filter_unique_length db.categories (fun c => c._id) hc
  intro a b ha hb
  have ha' : p.category = some a._id := by simpa using ha
  have hb' : p.category = some b._id := by simpa using hb
  rw [ha'] at hb'
  exact Option.some.inj hb'

/-- C28: in a store whose products and whose categories have pairwise distinct
identifiers, as the collections of the database guarantee, and in which every
persisted line item has a quantity of at least 1 and a price of at least 0, the
total of the sales by category is at most the total of the sales by product, which
is at most the sum of quantity times price over all line items of delivered
orders. -/
theorem report_totals_ordered (db : Store)
    (hitems : ∀ o ∈ db.orders, ∀ it ∈ o.orderItems, 1 ≤ it.quantity ∧ 0 ≤ it.price)
    (hp : (db.products.map (fun p => p._id)).Nodup)
    (hc : (db.categories.map (fun c => c._id)).Nodup) :
    ((salesByCategory db).map (fun b => b.sales)).sum
      ≤ ((salesByProduct db).map (fun b => b.sales)).sum ∧
    ((salesByProduct db).map (fun b => b.sales)).sum
      ≤ ((deliveredItems db).map (fun it => it.quantity * it.price)).sum := by
  have hnonneg : ∀ it ∈ deliveredItems db, 0 ≤ it.quantity * it.price := by
    intro it hit
    simp only [deliveredItems, List.mem_flatMap] at hit
    obtain ⟨o, ho, hio⟩ := hit
    obtain ⟨hq, hpr⟩ := hitems o (List.mem_filter.mp ho).1 it hio
    exact mul_nonneg (by linarith) hpr
  have hrow : ∀ r ∈ productRows db, r.1 ∈ deliveredItems db := by
    intro r hr
    simp only [productRows, List.mem_flatMap, List.mem_map] at hr
    obtain ⟨it, hit, p, _, rfl⟩ := hr
    exact hit
  rw [salesByCategory_total, salesByProduct_total]
  constructor
  · unfold categoryRows
    apply sum_flatMap_le
    intro r hr
    rw [List.map_map]
    exact sum_const_le_of_length_le_one _ _ (hnonneg r.1 (hrow r hr))
      (lookupCategories_length db r.2 hc)
  · unfold productRows
    apply sum_flatMap_le
    intro it hit
    rw [List.map_map]
    exact sum_const_le_of_length_le_one _ _ (hnonneg it hit) (lookupProducts_length db it hp)

/-- Witness of C28: the store whose delivered line item holds the identifier of a
catalog product. -/
theorem report_totals_ordered_witness :
    ((salesByCategory legacyStore).map (fun b => b.sales)).sum
      ≤ ((salesByProduct legacyStore).map (fun b => b.sales)).sum ∧
    ((salesByProduct legacyStore).map (fun b => b.sales)).sum
      ≤ ((deliveredItems legacyStore).map (fun it => it.quantity * it.price)).sum :=
  report_totals_ordered legacyStore
    (by
      intro o ho it hit
      simp only [legacyStore, List.mem_singleton] at ho
      subst ho
      simp only [List.mem_singleton] at hit
      subst hit
      exact ⟨le_refl _, by norm_num⟩)
    (by decide) (by decide)

end Cravebites
